import Mathlib

/-!
Shallow embedding of the zk-SPARQL query rewriter of zkp-ld/oxigraph
(src/server/src/zk.rs, src/server/src/zk/builder.rs), with theorems
checking the natural-language specification against it.

RDF terms, SPARQL algebra nodes and the query structures are translated
from the `oxrdf` / `spargebra` types as the two source files use them.
Code of the repository that is not among the given source files (the
`zk/mod.rs` constants, the pseudonymizer of `zk/nymizer.rs`, and the
store's `quads_for_pattern` interface) is modelled from the spec; each
such definition carries a doc comment saying so.
-/

set_option maxRecDepth 4000

namespace ZkSparql

/-- An RDF IRI (oxrdf `NamedNode`), kept as its IRI string. -/
structure NamedNode where
  iri : String
deriving DecidableEq, Repr

/-- An RDF blank node (oxrdf `BlankNode`), kept as its identifier
(`BlankNode::as_str` returns the identifier without the `_:` sigil). -/
structure BlankNode where
  id : String
deriving DecidableEq, Repr

/-- An RDF literal (oxrdf `Literal`): simple, datatyped, or language-tagged.
`Literal.value` is the lexical form, as `Literal::value()` returns it. -/
inductive Literal where
  | simple (value : String)
  | typed (value : String) (datatype : NamedNode)
  | langTagged (value : String) (lang : String)
deriving DecidableEq, Repr

def Literal.value : Literal → String
  | .simple v => v
  | .typed v _ => v
  | .langTagged v _ => v

/-- An RDF term (oxrdf `Term`); the `triple` constructor is an RDF-star
quoted triple (oxrdf `Triple` flattened into its three components). -/
inductive Term where
  | namedNode (n : NamedNode)
  | blankNode (b : BlankNode)
  | literal (l : Literal)
  | triple (s : Term) (p : NamedNode) (o : Term)
deriving DecidableEq, Repr

/-- A quad subject (oxrdf `Subject`). -/
inductive Subject where
  | namedNode (n : NamedNode)
  | blankNode (b : BlankNode)
  | triple (s : Term) (p : NamedNode) (o : Term)
deriving DecidableEq, Repr

/-- A graph name (oxrdf `GraphName`). -/
inductive GraphName where
  | namedNode (n : NamedNode)
  | blankNode (b : BlankNode)
  | defaultGraph
deriving DecidableEq, Repr

/-- An RDF quad (oxrdf `Quad`). -/
structure Quad where
  subject : Subject
  predicate : NamedNode
  object : Term
  graph : GraphName
deriving DecidableEq, Repr

/-- A SPARQL variable (spargebra `Variable`), kept as its name. -/
structure Variable where
  name : String
deriving DecidableEq, Repr

/-- spargebra `term::TermPattern`; the `triple` constructor is a quoted
triple pattern flattened into its components. -/
inductive TermPattern where
  | var (v : Variable)
  | namedNode (n : NamedNode)
  | blankNode (b : BlankNode)
  | literal (l : Literal)
  | triple (s : TermPattern) (p : TermPattern) (o : TermPattern)
deriving DecidableEq, Repr

/-- spargebra `term::NamedNodePattern`. -/
inductive NamedNodePattern where
  | var (v : Variable)
  | namedNode (n : NamedNode)
deriving DecidableEq, Repr

/-- spargebra `term::TriplePattern`. -/
structure TriplePattern where
  subject : TermPattern
  predicate : NamedNodePattern
  object : TermPattern
deriving DecidableEq, Repr

/-- spargebra `term::GroundTerm` (as the VALUES bindings hold them). -/
inductive GroundTerm where
  | namedNode (n : NamedNode)
  | literal (l : Literal)
deriving DecidableEq, Repr

/-- The spargebra `algebra::Function` constructors this code uses
(`Str`, `StrEnds`), plus a representative of the remaining ones. -/
inductive SFunction where
  | str
  | strEnds
  | lang
  | datatype
deriving DecidableEq, Repr

/-- spargebra `algebra::Expression`, restricted to the constructors the
two source files build or pass through. -/
inductive Expression where
  | namedNode (n : NamedNode)
  | literal (l : Literal)
  | var (v : Variable)
  | or (l r : Expression)
  | and (l r : Expression)
  | equal (l r : Expression)
  | not (e : Expression)
  | functionCall (f : SFunction) (args : List Expression)
deriving Repr

/-- spargebra `algebra::GraphPattern`: the variants the zk code
recognises (`Bgp`, `Join`, `Filter`, `Values`, `Project`, `Distinct`,
`Slice`, `Graph`) plus the other variants of the algebra, which the
parser's catch-all arms reject. -/
inductive GraphPattern where
  | bgp (patterns : List TriplePattern)
  | join (left right : GraphPattern)
  | filter (expr : Expression) (inner : GraphPattern)
  | values (vars : List Variable) (bindings : List (List (Option GroundTerm)))
  | project (inner : GraphPattern) (vars : List Variable)
  | distinct (inner : GraphPattern)
  | slice (inner : GraphPattern) (start : Nat) (length : Option Nat)
  | graph (name : NamedNodePattern) (inner : GraphPattern)
  | leftJoin (left right : GraphPattern) (expression : Option Expression)
  | union (left right : GraphPattern)
  | extend (inner : GraphPattern) (v : Variable) (expression : Expression)
  | minus (left right : GraphPattern)
  | orderBy (inner : GraphPattern)
  | group (inner : GraphPattern) (vars : List Variable)
  | reduced (inner : GraphPattern)
  | service (name : NamedNodePattern) (inner : GraphPattern) (silent : Bool)
deriving Repr

/-- spargebra `QueryDataset` (only ever `None` in the built queries). -/
structure QueryDataset where
  defaultGraphs : List NamedNode
  namedGraphs : Option (List NamedNode)
deriving Repr

/-- spargebra `Query`. -/
inductive Query where
  | select (dataset : Option QueryDataset) (pattern : GraphPattern)
      (baseIri : Option String)
  | construct (template : List TriplePattern) (dataset : Option QueryDataset)
      (pattern : GraphPattern) (baseIri : Option String)
  | describe (dataset : Option QueryDataset) (pattern : GraphPattern)
      (baseIri : Option String)
  | ask (dataset : Option QueryDataset) (pattern : GraphPattern)
      (baseIri : Option String)
deriving Repr

/-- zk.rs `ZkQueryValues` (also `zk/parser.rs`): the VALUES clause. -/
structure ZkQueryValues where
  vars : List Variable
  bindings : List (List (Option GroundTerm))
deriving Repr

/-- zk.rs `ZkQueryLimit`. -/
structure ZkQueryLimit where
  start : Nat
  length : Option Nat
deriving DecidableEq, Repr

/-- zk.rs `ZkQuery`, the normalized internal query form.
`in_scope_variables` is a Rust `HashSet<Variable>`; it is modelled as a
list standing for the set (the hash set's iteration order is
unspecified, the list fixes one). -/
structure ZkQuery where
  disclosed_variables : List Variable
  in_scope_variables : List Variable
  patterns : List TriplePattern
  filter : Option Expression
  values : Option ZkQueryValues
  limit : Option ZkQueryLimit
deriving Repr

/-- `zk/error.rs` `ZkSparqlError` (the variants builder.rs constructs). -/
inductive ZkSparqlError where
  | extendedQueryFailed
  | failedBuildingDisclosedSubject
  | failedBuildingDisclosedDataset
  | failedBuildingCredentialMetadata
  | blankNodeMustBeSkolemized (b : BlankNode)
  | invalidProofValues
deriving DecidableEq, Repr

/-- zk.rs `HttpError` as the zk module uses it. -/
inductive HttpError where
  | badRequest (msg : String)
  | internalServerError (msg : String)
deriving DecidableEq, Repr

/-- Modelled from the spec: the constant `VC_VARIABLE_PREFIX` lives in
`zk/mod.rs`, which is not among the given sources; the spec reserves the
variable prefix `__vc` (graph variables `__vc0`, `__vc1`, …). -/
def vcVariableStem : String := "__vc"

/-- Modelled from the spec: `SUBJECT_GRAPH_SUFFIX` lives in `zk/mod.rs`,
not among the given sources; the spec gives `.subject` as its value. -/
def SUBJECT_GRAPH_SUFFIX : String := ".subject"

/-- Modelled from the spec: `PROOF_GRAPH_SUFFIX` lives in `zk/mod.rs`,
not among the given sources; the spec gives `.proof` as its value. -/
def PROOF_GRAPH_SUFFIX : String := ".proof"

/-- builder.rs `RDF_TYPE`. -/
def RDF_TYPE : String := "http://www.w3.org/1999/02/22-rdf-syntax-ns#type"

/-- builder.rs `VERIFIABLE_CREDENTIAL`. -/
def VERIFIABLE_CREDENTIAL : String :=
  "https://www.w3.org/2018/credentials#VerifiableCredential"

/-- builder.rs `PROOF_VALUE`. -/
def PROOF_VALUE : String := "https://w3id.org/security#proofValue"

/-- builder.rs `ExtendedQuery`: the rewritten pattern plus the variable
list `disclosed_variables ++ graph variables`. -/
structure ExtendedQuery where
  pattern : GraphPattern
  vars : List Variable
deriving Repr

/-- builder.rs `TriplePatternWithGraphVar`. -/
structure TriplePatternWithGraphVar where
  triple_pattern : TriplePattern
  graph_var : Variable
deriving DecidableEq, Repr

/-- The synthetic graph variables `stem ++ i` for `i < n`, as both
builders generate them (`(0..patterns.len()).map(|i| Variable::new_unchecked(...))`);
builder.rs uses the reserved stem `__vc`, zk.rs uses `ggggg`. -/
def extendedGraphVariables (stem : String) (n : Nat) : List Variable :=
  (List.range n).map (fun i => ⟨stem ++ toString i⟩)

/-- builder.rs `build_extended_triple_patterns`. -/
def build_extended_triple_patterns (patterns : List TriplePattern)
    (extended_graph_variables : List Variable) :
    Except ZkSparqlError (List TriplePatternWithGraphVar) :=
  patterns.enum.mapM (fun p =>
    match extended_graph_variables.get? p.1 with
    | some g => .ok ⟨p.2, g⟩
    | none => .error .extendedQueryFailed)

/-- Rust `Iterator::reduce` over graph patterns with a join combiner. -/
def reduceJoin : List GraphPattern → Option GraphPattern
  | [] => none
  | x :: xs => some (xs.foldl (fun l r => .join l r) x)

/-- Rust `Iterator::reduce` over expressions with an and combiner. -/
def reduceAnd : List Expression → Option Expression
  | [] => none
  | x :: xs => some (xs.foldl (fun l r => .and l r) x)

/-- The per-graph-variable conjunct
`StrEnds(Str(gvar), SUBJECT_GRAPH_SUFFIX)` of the subject filter. -/
def subjectFilterTerm (gvar : Variable) : Expression :=
  .functionCall .strEnds
    [.functionCall .str [.var gvar], .literal (.simple SUBJECT_GRAPH_SUFFIX)]

/-- builder.rs `build_extended_query`. `unwrap_or_default()` on the join
reduction yields spargebra's `GraphPattern::default()`, the empty BGP. -/
def build_extended_query (query : ZkQuery)
    (extended_graph_variables : List Variable)
    (extended_triple_patterns : List TriplePatternWithGraphVar) :
    Except ZkSparqlError ExtendedQuery :=
  let extended_bgp :=
    (reduceJoin (extended_triple_patterns.map (fun p =>
      GraphPattern.graph (.var p.graph_var) (.bgp [p.triple_pattern])))).getD (.bgp [])
  let extended_bgp_with_values :=
    match query.values with
    | some v => GraphPattern.join (.values v.vars v.bindings) extended_bgp
    | none => extended_bgp
  match reduceAnd (extended_graph_variables.map subjectFilterTerm) with
  | none => .error .extendedQueryFailed
  | some subject_filter_expr =>
    let extended_filter_expr :=
      match query.filter with
      | some expr => Expression.and expr subject_filter_expr
      | none => subject_filter_expr
    let extended_bgp_with_values_and_filter :=
      GraphPattern.filter extended_filter_expr extended_bgp_with_values
    let extended_graph_pattern :=
      match query.limit with
      | some limit =>
          GraphPattern.slice extended_bgp_with_values_and_filter limit.start limit.length
      | none => extended_bgp_with_values_and_filter
    .ok ⟨extended_graph_pattern, query.disclosed_variables ++ extended_graph_variables⟩

/-- builder.rs `build_extended_fetch_query`. -/
def build_extended_fetch_query (query : ZkQuery) : Except ZkSparqlError Query := do
  let extended_graph_variables :=
    extendedGraphVariables vcVariableStem query.patterns.length
  let extended_triple_patterns ←
    build_extended_triple_patterns query.patterns extended_graph_variables
  let exq ← build_extended_query query extended_graph_variables extended_triple_patterns
  .ok (.select none (.distinct (.project exq.pattern exq.vars)) none)

/-- Insertion into the modelled `HashSet<Variable>`: a no-op when the
variable is present, an append otherwise. -/
def insertVar (v : Variable) (l : List Variable) : List Variable :=
  if v ∈ l then l else l ++ [v]

/-- The closure `blanknode_to_variable` of
builder.rs `replace_blanknodes_with_variables`, with the captured
`in_scope_variables` set threaded explicitly. -/
def blanknodeToVariable (term : TermPattern) (in_scope : List Variable) :
    TermPattern × List Variable :=
  match term with
  | .blankNode b =>
      let v : Variable := ⟨b.id⟩
      (.var v, insertVar v in_scope)
  | t => (t, in_scope)

/-- builder.rs `replace_blanknodes_with_variables`: subject then object
of each pattern in order, as the Rust struct literal evaluates them. -/
def replace_blanknodes_with_variables (query : ZkQuery) : ZkQuery :=
  let step := fun (acc : List TriplePattern × List Variable) (p : TriplePattern) =>
    let s := blanknodeToVariable p.subject acc.2
    let o := blanknodeToVariable p.object s.2
    (acc.1 ++ [⟨s.1, p.predicate, o.1⟩], o.2)
  let r := query.patterns.foldl step ([], query.in_scope_variables)
  { disclosed_variables := query.disclosed_variables
    in_scope_variables := r.2
    patterns := r.1
    filter := query.filter
    values := query.values
    limit := query.limit }

/-- builder.rs `build_extended_prove_query`: note it projects
`new_query.in_scope_variables` and discards the `variables` field of the
`ExtendedQuery` it builds. -/
def build_extended_prove_query (query : ZkQuery) :
    Except ZkSparqlError (Query × List TriplePatternWithGraphVar) := do
  let new_query := replace_blanknodes_with_variables query
  let extended_graph_variables :=
    extendedGraphVariables vcVariableStem new_query.patterns.length
  let extended_triple_patterns ←
    build_extended_triple_patterns new_query.patterns extended_graph_variables
  let exq ← build_extended_query new_query extended_graph_variables extended_triple_patterns
  .ok (.select none (.distinct (.project exq.pattern new_query.in_scope_variables)) none,
       extended_triple_patterns)

/-- The variables of a term pattern (quoted triples included). -/
def termPatternVars : TermPattern → List Variable
  | .var v => [v]
  | .triple s p o => termPatternVars s ++ termPatternVars p ++ termPatternVars o
  | _ => []

/-- The variables of a triple pattern, subject-predicate-object order. -/
def triplePatternVars (tp : TriplePattern) : List Variable :=
  termPatternVars tp.subject ++
    (match tp.predicate with | .var v => [v] | .namedNode _ => []) ++
    termPatternVars tp.object

/-- Left fold of `insertVar`: a list deduplicated in first-occurrence
order, the set the visitor accumulates. -/
def dedupInsert (l : List Variable) : List Variable :=
  l.foldl (fun acc v => insertVar v acc) []

/-- Modelled from the spec: spargebra's `GraphPattern::on_in_scope_variable`
is external-library code, not among the given sources. The spec says
`in_scope_variables` "is computed by walking Core and recording every
binding variable"; this collects binding variables per the SPARQL
in-scope rules (a FILTER expression binds nothing). -/
def rawInScope : GraphPattern → List Variable
  | .bgp ps => ps.foldr (fun tp acc => triplePatternVars tp ++ acc) []
  | .join l r => rawInScope l ++ rawInScope r
  | .filter _ inner => rawInScope inner
  | .values vs _ => vs
  | .project _ vs => vs
  | .distinct inner => rawInScope inner
  | .slice inner _ _ => rawInScope inner
  | .graph n inner =>
      (match n with | .var v => [v] | .namedNode _ => []) ++ rawInScope inner
  | .leftJoin l r _ => rawInScope l ++ rawInScope r
  | .union l r => rawInScope l ++ rawInScope r
  | .extend inner v _ => rawInScope inner ++ [v]
  | .minus l _ => rawInScope l
  | .orderBy inner => rawInScope inner
  | .group _ vs => vs
  | .reduced inner => rawInScope inner
  | .service _ inner _ => rawInScope inner

/-- The set of in-scope variables of a pattern, as zk.rs collects it
into a `HashSet` via the visitor. -/
def inScopeVariables (p : GraphPattern) : List Variable :=
  dedupInsert (rawInScope p)

/-- zk.rs `parse_zk_common`. -/
def parse_zk_common (pattern : GraphPattern) (disclosed_variables : List Variable)
    (limit : Option ZkQueryLimit) : Except HttpError ZkQuery :=
  let in_scope_variables := inScopeVariables pattern
  match pattern with
  | .filter expr inner =>
    match inner with
    | .bgp patterns =>
        .ok ⟨disclosed_variables, in_scope_variables, patterns, some expr, none, limit⟩
    | .join left right =>
      match left, right with
      | .values vs bs, .bgp patterns =>
          .ok ⟨disclosed_variables, in_scope_variables, patterns, some expr,
               some ⟨vs, bs⟩, limit⟩
      | _, _ => .error (.badRequest "invalid query")
    | _ => .error (.badRequest "invalid query")
  | .bgp patterns =>
      .ok ⟨disclosed_variables, in_scope_variables, patterns, none, none, limit⟩
  | .join left right =>
    match left, right with
    | .values vs bs, .bgp patterns =>
        .ok ⟨disclosed_variables, in_scope_variables, patterns, none,
             some ⟨vs, bs⟩, limit⟩
    | _, _ => .error (.badRequest "invalid query")
  | _ => .error (.badRequest "invalid query")

/-- zk.rs `parse_zk_select`. -/
def parse_zk_select (pattern : GraphPattern) : Except HttpError ZkQuery :=
  match pattern with
  | .slice inner start length =>
    match inner with
    | .project inner' vs => parse_zk_common inner' vs (some ⟨start, length⟩)
    | _ => .error (.badRequest "invalid SELECT query")
  | .project inner vs => parse_zk_common inner vs none
  | _ => .error (.badRequest "invalid SELECT query")

/-- zk.rs `parse_zk_ask`. -/
def parse_zk_ask (pattern : GraphPattern) : Except HttpError ZkQuery :=
  match pattern with
  | .slice inner start length => parse_zk_common inner [] (some ⟨start, length⟩)
  | p => parse_zk_common p [] none

/-- zk.rs `parse_zk_query`, on the already-parsed spargebra `Query`
(the lexical SPARQL parse that precedes it is external-library code). -/
def parse_zk_query (query : Query) : Except HttpError ZkQuery :=
  match query with
  | .construct _ _ _ _ => .error (.badRequest "CONSTRUCT is not supported in zk-SPARQL")
  | .describe _ _ _ => .error (.badRequest "DESCRIBE is not supported in zk-SPARQL")
  | .select _ pattern _ => parse_zk_select pattern
  | .ask _ pattern _ => parse_zk_ask pattern

/-- zk.rs `construct_extended_query` (the legacy in-module builder):
graph-variable stem `ggggg`, no subject-graph filter. -/
def construct_extended_query (query : ZkQuery) : Except HttpError Query :=
  let extended_graph_variables := extendedGraphVariables "ggggg" query.patterns.length
  match query.patterns.enum.mapM (fun p =>
      match extended_graph_variables.get? p.1 with
      | some v => Except.ok (GraphPattern.graph (.var v) (.bgp [p.2]))
      | none => .error (HttpError.badRequest "extended_variables: out of index")) with
  | .error e => .error e
  | .ok wrapped =>
    let extended_bgp := (reduceJoin wrapped).getD (.bgp [])
    let extended_bgp_with_values :=
      match query.values with
      | some v => GraphPattern.join (.values v.vars v.bindings) extended_bgp
      | none => extended_bgp
    let extended_bgp_with_values_and_filter :=
      match query.filter with
      | some f => GraphPattern.filter f extended_bgp_with_values
      | none => extended_bgp_with_values
    let extended_graph_pattern :=
      match query.limit with
      | some limit =>
          GraphPattern.slice extended_bgp_with_values_and_filter limit.start limit.length
      | none => extended_bgp_with_values_and_filter
    .ok (.select none (.distinct (.project extended_graph_pattern
          (query.disclosed_variables ++ extended_graph_variables))) none)

/-- Lookup in a solution row, modelling `HashMap<Variable, Term>::get`. -/
def solutionGet (solution : List (Variable × Term)) (v : Variable) : Option Term :=
  match solution with
  | [] => none
  | kt :: rest => if kt.1 = v then some kt.2 else solutionGet rest v

/-- builder.rs `build_disclosed_subject`. -/
def build_disclosed_subject (solution : List (Variable × Term))
    (pattern_with_graph_var : TriplePatternWithGraphVar) :
    Except ZkSparqlError Quad := do
  let tp := pattern_with_graph_var.triple_pattern
  let g ← match solutionGet solution pattern_with_graph_var.graph_var with
    | some (.namedNode n) => Except.ok (GraphName.namedNode n)
    | some _ => .error .failedBuildingDisclosedSubject
    | none => .error .failedBuildingDisclosedSubject
  let s ← match tp.subject with
    | .var v =>
      match solutionGet solution v with
      | some (.namedNode n) => Except.ok (Subject.namedNode n)
      | some _ => .error .failedBuildingDisclosedSubject
      | none => .error .failedBuildingDisclosedSubject
    | .namedNode n => .ok (.namedNode n)
    | .blankNode b => .ok (.blankNode b)
    | _ => .error .failedBuildingDisclosedSubject
  let p ← match tp.predicate with
    | .var v =>
      match solutionGet solution v with
      | some (.namedNode n) => Except.ok n
      | some _ => .error .failedBuildingDisclosedSubject
      | none => .error .failedBuildingDisclosedSubject
    | .namedNode n => .ok n
  let o ← match tp.object with
    | .var v =>
      match solutionGet solution v with
      | some t => Except.ok t
      | none => .error .failedBuildingDisclosedSubject
    | .namedNode n => .ok (Term.namedNode n)
    | .blankNode b => .ok (Term.blankNode b)
    | .literal l => .ok (Term.literal l)
    | .triple _ _ _ => .error .failedBuildingDisclosedSubject
  .ok ⟨s, p, o, g⟩

/-- builder.rs `build_disclosed_subjects`. -/
def build_disclosed_subjects (solutions : List (List (Variable × Term)))
    (extended_triple_patterns : List TriplePatternWithGraphVar) :
    Except ZkSparqlError (List Quad) := do
  let disclosed ← solutions.mapM (fun solution =>
    extended_triple_patterns.mapM (fun pattern =>
      build_disclosed_subject solution pattern))
  .ok disclosed.flatten

/-- Modelled from the spec: the oxigraph store is an external
collaborator (§6); it must provide
`quads_for_pattern(s?, p?, o?, g?) → iterator<Quad>` with `None`
denoting a wildcard in each position. The store is a quad list
presenting a consistent snapshot; lookups never fail. -/
def quadsForPattern (store : List Quad) (s : Option Subject) (p : Option NamedNode)
    (o : Option Term) (g : Option GraphName) : List Quad :=
  store.filter (fun q =>
    (match s with | none => true | some x => decide (q.subject = x)) &&
    (match p with | none => true | some x => decide (q.predicate = x)) &&
    (match o with | none => true | some x => decide (q.object = x)) &&
    (match g with | none => true | some x => decide (q.graph = x)))

/-- A pseudonymizable identifier: a named or a blank node (§4.5's
mapping domain `NamedNode → NamedNode` and `BlankNode → NamedNode`). -/
inductive NymKey where
  | named (n : NamedNode)
  | blank (b : BlankNode)
deriving DecidableEq, Repr

/-- Modelled from the spec: the `Pseudonymizer` of `zk/nymizer.rs` is
not among the given sources. §4.5: a stateful, monotonically growing
mapping `identifier → pseudonym`, request-local. -/
structure Pseudonymizer where
  mapping : List (NymKey × NamedNode)
  counter : Nat
deriving DecidableEq, Repr

/-- Lookup in the pseudonym mapping. -/
def nymLookup (m : List (NymKey × NamedNode)) (key : NymKey) : Option NamedNode :=
  match m with
  | [] => none
  | kn :: rest => if kn.1 = key then some kn.2 else nymLookup rest key

/-- The IRI of the `k`-th pseudonym: §4.5 leaves the form
implementation-defined but requires a deterministic absolute IRI, e.g.
base URI plus a sequential counter. -/
def nymIri (k : Nat) : NamedNode := ⟨"urn:nym:" ++ toString k⟩

/-- Allocate-on-first-occurrence pseudonym issuance (§4.5 tie-break):
subsequent lookups return the existing pseudonym. -/
def Pseudonymizer.issue (st : Pseudonymizer) (key : NymKey) :
    NamedNode × Pseudonymizer :=
  match nymLookup st.mapping key with
  | some n => (n, st)
  | none =>
      let n := nymIri st.counter
      (n, ⟨st.mapping ++ [(key, n)], st.counter + 1⟩)

/-- Rewrite a named node: replaced by its pseudonym exactly when it is
in the additional-targets set (§4.5 case (a)), else passed through. -/
def nymNamed (st : Pseudonymizer) (targets : List NamedNode) (n : NamedNode) :
    NamedNode × Pseudonymizer :=
  if n ∈ targets then st.issue (.named n) else (n, st)

/-- Rewrite a subject position (§4.5): a named node via the target
rule, a blank node always, a quoted triple never. -/
def nymSubject (st : Pseudonymizer) (targets : List NamedNode) :
    Subject → Subject × Pseudonymizer
  | .namedNode n => let r := nymNamed st targets n; (.namedNode r.1, r.2)
  | .blankNode b => let r := st.issue (.blank b); (.namedNode r.1, r.2)
  | .triple a b c => (.triple a b c, st)

/-- Rewrite an object position (§4.5): literals and quoted triples are
never rewritten. -/
def nymTerm (st : Pseudonymizer) (targets : List NamedNode) :
    Term → Term × Pseudonymizer
  | .namedNode n => let r := nymNamed st targets n; (.namedNode r.1, r.2)
  | .blankNode b => let r := st.issue (.blank b); (.namedNode r.1, r.2)
  | .literal l => (.literal l, st)
  | .triple a b c => (.triple a b c, st)

/-- Rewrite a graph-name position (§4.5). -/
def nymGraph (st : Pseudonymizer) (targets : List NamedNode) :
    GraphName → GraphName × Pseudonymizer
  | .namedNode n => let r := nymNamed st targets n; (.namedNode r.1, r.2)
  | .blankNode b => let r := st.issue (.blank b); (.namedNode r.1, r.2)
  | .defaultGraph => (.defaultGraph, st)

/-- Modelled from the spec: `Pseudonymizer::pseudonymize_quad` of
`zk/nymizer.rs` is not among the given sources. §4.5: for each
identifier position of the quad, an identifier that is in the
additional-targets set or is a blank node is rewritten to its stable
pseudonym; literals and quoted triples are never rewritten; pseudonym
allocation is modelled as never failing. Positions are processed in
subject, predicate, object, graph order. -/
def pseudonymize_quad (st : Pseudonymizer) (q : Quad) (targets : List NamedNode) :
    Quad × Pseudonymizer :=
  let s := nymSubject st targets q.subject
  let p := nymNamed s.2 targets q.predicate
  let o := nymTerm p.2 targets q.object
  let g := nymGraph o.2 targets q.graph
  (⟨s.1, p.1, o.1, g.1⟩, g.2)

/-- The closure `pull_and_nymize` of builder.rs `build_metadata_or_proofs`:
collect the additional pseudonymization targets (subjects matching the
predicate/object filter; blank-node subjects are rejected, quoted-triple
subjects fail the metadata build), then pull every quad of the graph
except those with predicate `sec:proofValue` and pseudonymize each. -/
def pullAndNymize (store : List Quad) (st : Pseudonymizer) (graph_id : GraphName)
    (predicate : Option NamedNode) (object : Option Term) :
    Except ZkSparqlError (List Quad × Pseudonymizer) := do
  let additional_targets ←
    (quadsForPattern store none predicate object (some graph_id)).mapM
      (fun q => match q.subject with
        | .namedNode n => Except.ok n
        | .blankNode b => .error (ZkSparqlError.blankNodeMustBeSkolemized b)
        | .triple _ _ _ => .error .failedBuildingCredentialMetadata)
  let pulled := (quadsForPattern store none none none (some graph_id)).filter
      (fun q => decide (q.predicate.iri ≠ PROOF_VALUE))
  .ok (pulled.foldl (fun acc q =>
      let pq := pseudonymize_quad acc.2 q additional_targets
      (acc.1 ++ [pq.1], pq.2)) (([] : List Quad), st))

/-- builder.rs `build_metadata_or_proofs`, over the graph-id set
(modelled as a list): per-graph pull-and-pseudonymize, results
flattened in order and the pseudonymizer state threaded through. -/
def build_metadata_or_proofs (graph_ids : List GraphName)
    (predicate : Option NamedNode) (object : Option Term)
    (store : List Quad) (st : Pseudonymizer) :
    Except ZkSparqlError (List Quad × Pseudonymizer) :=
  match graph_ids with
  | [] => .ok ([], st)
  | g :: gs => do
    let r ← pullAndNymize store st g predicate object
    let rest ← build_metadata_or_proofs gs predicate object store r.2
    .ok (r.1 ++ rest.1, rest.2)

/-- builder.rs `gen_proof_graph_ids`: append `PROOF_GRAPH_SUFFIX` to
each named credential graph; any non-named graph name is an error.
(`NamedNode::new` re-validation is modelled as succeeding: appending
the suffix to a valid IRI yields a valid IRI.) -/
def gen_proof_graph_ids (cred_graph_ids : List GraphName) :
    Except ZkSparqlError (List GraphName) :=
  cred_graph_ids.mapM (fun g =>
    match g with
    | .namedNode n => .ok (GraphName.namedNode ⟨n.iri ++ PROOF_GRAPH_SUFFIX⟩)
    | _ => .error .failedBuildingDisclosedDataset)

/-- builder.rs `build_metadata`. -/
def build_metadata (cred_graph_ids : List GraphName) (store : List Quad)
    (st : Pseudonymizer) : Except ZkSparqlError (List Quad × Pseudonymizer) :=
  build_metadata_or_proofs cred_graph_ids (some ⟨RDF_TYPE⟩)
    (some (Term.namedNode ⟨VERIFIABLE_CREDENTIAL⟩)) store st

/-- builder.rs `build_proofs`. -/
def build_proofs (cred_graph_ids : List GraphName) (store : List Quad)
    (st : Pseudonymizer) : Except ZkSparqlError (List Quad × Pseudonymizer) := do
  let ids ← gen_proof_graph_ids cred_graph_ids
  build_metadata_or_proofs ids (some ⟨RDF_TYPE⟩) none store st

/-- The per-proof-graph closure of builder.rs `get_proof_values`: the
objects of the graph's `sec:proofValue` quads; exactly one, a literal,
is required, and its lexical value enters the side map. -/
def get_proof_values_item (store : List Quad) (pid : GraphName) :
    Except ZkSparqlError (GraphName × String) :=
  let proof_values := (quadsForPattern store none (some ⟨PROOF_VALUE⟩) none
      (some pid)).map (fun q => q.object)
  match proof_values with
  | [Term.literal v] => .ok (pid, v.value)
  | _ => .error .invalidProofValues

/-- builder.rs `get_proof_values`. -/
def get_proof_values (cred_graph_ids : List GraphName) (store : List Quad) :
    Except ZkSparqlError (List (GraphName × String)) := do
  let proof_graph_ids ← gen_proof_graph_ids cred_graph_ids
  proof_graph_ids.mapM (get_proof_values_item store)

/-! Spec-side observers and helper forms, used to state the claims.
They are written from the spec's words, to be compared with the
source-derived builders above. -/

/-- The LIMIT wrap of §4.2: `Slice(inner, start, length?)` if present. -/
def limitW (limit : Option ZkQueryLimit) (inner : GraphPattern) : GraphPattern :=
  match limit with
  | some l => .slice inner l.start l.length
  | none => inner

/-- The VALUES wrap of §4.2: `Join(Values(Vs,Bs), chain)` if present. -/
def valuesW (values : Option ZkQueryValues) (inner : GraphPattern) : GraphPattern :=
  match values with
  | some v => .join (.values v.vars v.bindings) inner
  | none => inner

/-- The claim's filter composition: `And(userFilter, subjectFilter)`
when the user supplied a filter, the subject filter alone otherwise. -/
def finalFilterExpr (userFilter : Option Expression) (subjectFilter : Expression) :
    Expression :=
  match userFilter with
  | some f => .and f subjectFilter
  | none => subjectFilter

/-- The user-filter-only wrap of zk.rs `construct_extended_query`. -/
def filterW (userFilter : Option Expression) (inner : GraphPattern) : GraphPattern :=
  match userFilter with
  | some f => .filter f inner
  | none => inner

/-- §4.2's per-pattern wrap `Graph(Gi, Bgp([Pi]))`. -/
def graphWrap (tp : TriplePattern) (g : Variable) : GraphPattern :=
  .graph (.var g) (.bgp [tp])

/-- The join chain: `reduce(Join)` with the empty group pattern as the
default of an empty list. -/
def joinChain (l : List GraphPattern) : GraphPattern :=
  (reduceJoin l).getD (.bgp [])

/-- The projection variable list of an extended query, read off the
`Distinct(Project(...))` root. -/
def projectionVars : Query → Option (List Variable)
  | .select _ (.distinct (.project _ vs)) _ => some vs
  | _ => none

/-- The filter expression at the core of an extended query: peel
`Select/Distinct/Project`, then an optional `Slice`, then read the
`Filter` node. -/
def coreFilterExpr : Query → Option Expression
  | .select _ (.distinct (.project inner _)) _ =>
    (match inner with
     | .slice (.filter e _) _ _ => some e
     | .filter e _ => some e
     | _ => none)
  | _ => none

/-- Every triple pattern appearing in a BGP anywhere in a pattern tree,
left to right. -/
def collectBgpTriples : GraphPattern → List TriplePattern
  | .bgp ps => ps
  | .join l r => collectBgpTriples l ++ collectBgpTriples r
  | .filter _ inner => collectBgpTriples inner
  | .values _ _ => []
  | .project inner _ => collectBgpTriples inner
  | .distinct inner => collectBgpTriples inner
  | .slice inner _ _ => collectBgpTriples inner
  | .graph _ inner => collectBgpTriples inner
  | .leftJoin l r _ => collectBgpTriples l ++ collectBgpTriples r
  | .union l r => collectBgpTriples l ++ collectBgpTriples r
  | .extend inner _ _ => collectBgpTriples inner
  | .minus l r => collectBgpTriples l ++ collectBgpTriples r
  | .orderBy inner => collectBgpTriples inner
  | .group inner _ => collectBgpTriples inner
  | .reduced inner => collectBgpTriples inner
  | .service _ inner _ => collectBgpTriples inner

/-- The triple patterns of a query's pattern tree. -/
def queryTriples : Query → List TriplePattern
  | .select _ p _ => collectBgpTriples p
  | .construct _ _ p _ => collectBgpTriples p
  | .describe _ p _ => collectBgpTriples p
  | .ask _ p _ => collectBgpTriples p

/-- The leaves of a left-leaning join chain, left to right (a non-join
node is a single leaf; a join contributes its right child as a leaf). -/
def chainLeaves : GraphPattern → List GraphPattern
  | .join l r => chainLeaves l ++ [r]
  | x => [x]

/-- Whether a pattern is a left-leaning chain of joins whose right
children (and leftmost leaf) are GRAPH-wrapped single-pattern BGPs. -/
def isLeftLeaningGraphChain : GraphPattern → Bool
  | .join l r => isLeftLeaningGraphChain l && isGraphLeaf r
  | x => isGraphLeaf x
where
  isGraphLeaf : GraphPattern → Bool
    | .graph (.var _) (.bgp [_]) => true
    | _ => false

/-- Whether a pattern tree contains a `Filter` node anywhere. -/
def hasFilterNode : GraphPattern → Bool
  | .bgp _ => false
  | .join l r => hasFilterNode l || hasFilterNode r
  | .filter _ _ => true
  | .values _ _ => false
  | .project inner _ => hasFilterNode inner
  | .distinct inner => hasFilterNode inner
  | .slice inner _ _ => hasFilterNode inner
  | .graph _ inner => hasFilterNode inner
  | .leftJoin l r _ => hasFilterNode l || hasFilterNode r
  | .union l r => hasFilterNode l || hasFilterNode r
  | .extend inner _ _ => hasFilterNode inner
  | .minus l r => hasFilterNode l || hasFilterNode r
  | .orderBy inner => hasFilterNode inner
  | .group inner _ => hasFilterNode inner
  | .reduced inner => hasFilterNode inner
  | .service _ inner _ => hasFilterNode inner

/-- Whether a query's pattern tree contains a `Filter` node. -/
def queryHasFilter : Query → Bool
  | .select _ p _ => hasFilterNode p
  | .construct _ _ p _ => hasFilterNode p
  | .describe _ p _ => hasFilterNode p
  | .ask _ p _ => hasFilterNode p

/-- Whether the root node of a pattern is a `Filter`. -/
def headIsFilter : GraphPattern → Bool
  | .filter _ _ => true
  | _ => false

/-- Whether the root node of a pattern is a `Slice`. -/
def headIsSlice : GraphPattern → Bool
  | .slice _ _ _ => true
  | _ => false

/-- §4.2b's blank-node lifting on one term pattern: a blank node becomes
the variable of the same name, anything else is unchanged. -/
def liftTerm : TermPattern → TermPattern
  | .blankNode b => .var ⟨b.id⟩
  | t => t

/-- §4.2b's blank-node lifting on a triple pattern: subject and object
lifted, predicate untouched. -/
def liftPattern (tp : TriplePattern) : TriplePattern :=
  ⟨liftTerm tp.subject, tp.predicate, liftTerm tp.object⟩

/-- The variables the blank-node lifting creates from one pattern. -/
def blankVarsOf (tp : TriplePattern) : List Variable :=
  (match tp.subject with | .blankNode b => [(⟨b.id⟩ : Variable)] | _ => []) ++
  (match tp.object with | .blankNode b => [(⟨b.id⟩ : Variable)] | _ => [])

/-- §4.1's accepted Core shapes:
`Bgp | Join(Values,Bgp) | Filter(E,Bgp) | Filter(E,Join(Values,Bgp))`. -/
def isCoreShape : GraphPattern → Bool
  | .bgp _ => true
  | .join (.values _ _) (.bgp _) => true
  | .filter _ (.bgp _) => true
  | .filter _ (.join (.values _ _) (.bgp _)) => true
  | _ => false

/-- §4.1's accepted query shapes: a SELECT whose root is
`Slice(Project(Core))` or `Project(Core)`, or an ASK whose root is
`Slice(Core)` or `Core`; nothing else. -/
def acceptedZkShape : Query → Bool
  | .select _ p _ =>
    (match p with
     | .slice (.project inner _) _ _ => isCoreShape inner
     | .project inner _ => isCoreShape inner
     | _ => false)
  | .ask _ p _ =>
    (match p with
     | .slice inner _ _ => isCoreShape inner
     | p' => isCoreShape p')
  | _ => false

/-- The derived proof graph of a named credential graph (§4.4). -/
def proofGraphOf (n : NamedNode) : GraphName :=
  .namedNode ⟨n.iri ++ PROOF_GRAPH_SUFFIX⟩

/-- The derived proof graph of an arbitrary graph name (identity on
non-named graphs, which `gen_proof_graph_ids` rejects anyway). -/
def proofGraphName : GraphName → GraphName
  | .namedNode n => proofGraphOf n
  | g => g

/-- The objects of a proof graph's `sec:proofValue` quads. -/
def pvObjects (store : List Quad) (pg : GraphName) : List Term :=
  (quadsForPattern store none (some ⟨PROOF_VALUE⟩) none (some pg)).map
    (fun q => q.object)

/-- §4.4's proof-value requirement on a credential graph: it is named
and its proof graph holds exactly one `sec:proofValue` quad, whose
object is a literal. -/
def goodProofGraph (store : List Quad) (g : GraphName) : Prop :=
  ∃ n l, g = .namedNode n ∧ pvObjects store (proofGraphOf n) = [Term.literal l]

/-- A well-formed pseudonymizer state: every pseudonym already in the
mapping came from the pseudonym namespace (true of the request-local
states the orchestrator threads, which start empty). -/
def Pseudonymizer.wf (st : Pseudonymizer) : Prop :=
  ∀ kn ∈ st.mapping, ∃ k : Nat, kn.2 = nymIri k

/-! Concrete inputs used by the counterexamples and witnesses. -/

/-- The variable `?s`. -/
def varS : Variable := ⟨"s"⟩

/-- The variable `?o`. -/
def varO : Variable := ⟨"o"⟩

/-- The triple pattern `?s <http://example.org/p> ?o`. -/
def tpSO : TriplePattern :=
  ⟨.var varS, .namedNode ⟨"http://example.org/p"⟩, .var varO⟩

/-- The `ZkQuery` of `SELECT ?s WHERE { ?s <http://example.org/p> ?o }`:
one pattern, `disclosed = [?s]`, `in_scope = {?s, ?o}`. -/
def zkQ1 : ZkQuery :=
  { disclosed_variables := [varS]
    in_scope_variables := [varS, varO]
    patterns := [tpSO]
    filter := none
    values := none
    limit := none }

/-- `zkQ1` with an empty pattern list. -/
def zkQEmpty : ZkQuery :=
  { disclosed_variables := [varS]
    in_scope_variables := [varS]
    patterns := []
    filter := none
    values := none
    limit := none }

/-- A `ZkQuery` whose user variable `?ggggg0` collides with the graph
variable zk.rs synthesizes for its first pattern (the user may
legitimately write `SELECT ?ggggg0 WHERE { ?ggggg0 <p> ?o }`). -/
def zkQCollide : ZkQuery :=
  { disclosed_variables := [⟨"ggggg0"⟩]
    in_scope_variables := [⟨"ggggg0"⟩, varO]
    patterns := [⟨.var ⟨"ggggg0"⟩, .namedNode ⟨"http://example.org/p"⟩, .var varO⟩]
    filter := none
    values := none
    limit := none }

/-- The `ZkQuery` of `SELECT ?s WHERE { ?s <http://example.org/p> _:x }`
(prove variant): a blank-node object to be lifted. -/
def zkQBlank : ZkQuery :=
  { disclosed_variables := [varS]
    in_scope_variables := [varS]
    patterns := [⟨.var varS, .namedNode ⟨"http://example.org/p"⟩, .blankNode ⟨"x"⟩⟩]
    filter := none
    values := none
    limit := none }

/-- `tpSO` paired with the graph variable `__vc0`. -/
def tpgSO : TriplePatternWithGraphVar := ⟨tpSO, ⟨"__vc0"⟩⟩

/-- A solution row binding `?s`, `?o` and `?__vc0` to named nodes. -/
def solRowOk : List (Variable × Term) :=
  [(varS, .namedNode ⟨"http://example.org/alice"⟩),
   (varO, .namedNode ⟨"http://example.org/bob"⟩),
   (⟨"__vc0"⟩, .namedNode ⟨"http://example.org/c1.subject"⟩)]

/-- A solution row that fails to bind `?o`. -/
def solRowBad : List (Variable × Term) :=
  [(varS, .namedNode ⟨"http://example.org/alice"⟩),
   (⟨"__vc0"⟩, .namedNode ⟨"http://example.org/c1.subject"⟩)]

/-- A named credential graph `<http://example.org/c1.subject>`. -/
def credG : GraphName := .namedNode ⟨"http://example.org/c1.subject"⟩

/-- A small store: one credential graph with a type quad and a payload
quad, and its proof graph with a single literal `sec:proofValue`. -/
def storeEx : List Quad :=
  [ ⟨.namedNode ⟨"http://example.org/alice"⟩, ⟨RDF_TYPE⟩,
      .namedNode ⟨VERIFIABLE_CREDENTIAL⟩, credG⟩,
    ⟨.namedNode ⟨"http://example.org/alice"⟩, ⟨"http://example.org/knows"⟩,
      .namedNode ⟨"http://example.org/bob"⟩, credG⟩,
    ⟨.namedNode ⟨"http://example.org/c1proof"⟩, ⟨PROOF_VALUE⟩,
      .literal (.simple "proofBytes"),
      .namedNode ⟨"http://example.org/c1.subject.proof"⟩⟩ ]

/-- `storeEx` with the proof-value quad duplicated: its proof graph
carries two `sec:proofValue` quads. -/
def storeExDup : List Quad :=
  storeEx ++
  [ ⟨.namedNode ⟨"http://example.org/c1proof"⟩, ⟨PROOF_VALUE⟩,
      .literal (.simple "proofBytes2"),
      .namedNode ⟨"http://example.org/c1.subject.proof"⟩⟩ ]

/-! Generic lemmas about `Except`-valued `mapM`. -/

theorem except_bind_ok {α β ε : Type} (a : α) (f : α → Except ε β) :
    (Except.ok a >>= f) = f a := rfl

theorem except_bind_error {α β ε : Type} (e : ε) (f : α → Except ε β) :
    ((Except.error e : Except ε α) >>= f) = .error e := rfl

theorem except_pure_eq_ok {α ε : Type} (a : α) :
    (pure a : Except ε α) = .ok a := rfl

theorem exceptMapM_ok_iff_forall2 {α β ε : Type} (f : α → Except ε β) :
    ∀ (l : List α) (ys : List β),
      l.mapM f = .ok ys ↔ List.Forall₂ (fun x y => f x = .ok y) l ys := by
  intro l
  induction l with
  | nil =>
    intro ys
    rw [List.mapM_nil]
    constructor
    · intro h
      cases h
      exact List.Forall₂.nil
    · intro h
      cases h
      rfl
  | cons a l ih =>
    intro ys
    rw [List.mapM_cons]
    constructor
    · intro h
      cases hfa : f a with
      | error e =>
        rw [hfa, except_bind_error] at h
        cases h
      | ok b =>
        rw [hfa, except_bind_ok] at h
        cases hrest : l.mapM f with
        | error e =>
          rw [hrest, except_bind_error] at h
          cases h
        | ok bs =>
          rw [hrest, except_bind_ok, except_pure_eq_ok] at h
          cases h
          exact List.Forall₂.cons hfa ((ih bs).mp hrest)
    · intro h
      cases h with
      | cons hfa hrest =>
        rw [hfa, except_bind_ok, (ih _).mpr hrest, except_bind_ok, except_pure_eq_ok]

theorem exceptMapM_ok_of_mem {α β ε : Type} (f : α → Except ε β)
    (l : List α) (ys : List β) (h : l.mapM f = .ok ys) :
    ∀ x ∈ l, ∃ y ∈ ys, f x = .ok y := by
  have h2 := (exceptMapM_ok_iff_forall2 f l ys).mp h
  clear h
  induction h2 with
  | nil => intro x hx; cases hx
  | cons hfa _ ih =>
    intro x hx
    rcases List.mem_cons.mp hx with rfl | hx
    · exact ⟨_, List.mem_cons_self .., hfa⟩
    · rcases ih x hx with ⟨y, hy, hfy⟩
      exact ⟨y, List.mem_cons_of_mem _ hy, hfy⟩

theorem exceptMapM_mem_of_ok {α β ε : Type} (f : α → Except ε β)
    (l : List α) (ys : List β) (h : l.mapM f = .ok ys) :
    ∀ y ∈ ys, ∃ x ∈ l, f x = .ok y := by
  have h2 := (exceptMapM_ok_iff_forall2 f l ys).mp h
  clear h
  induction h2 with
  | nil => intro y hy; cases hy
  | cons hfa _ ih =>
    intro y hy
    rcases List.mem_cons.mp hy with rfl | hy
    · exact ⟨_, List.mem_cons_self .., hfa⟩
    · rcases ih y hy with ⟨x, hx, hfx⟩
      exact ⟨x, List.mem_cons_of_mem _ hx, hfx⟩

/-- `mapM` over a function that can only fail with the single error `e`
either succeeds or fails with `e`. -/
theorem exceptMapM_uniform_error {α β ε : Type} (f : α → Except ε β) (e : ε)
    (hf : ∀ x e', f x = .error e' → e' = e) :
    ∀ l : List α, (∃ ys, l.mapM f = .ok ys) ∨ l.mapM f = .error e := by
  intro l
  induction l with
  | nil => exact Or.inl ⟨[], rfl⟩
  | cons a l ih =>
    rw [List.mapM_cons]
    cases hfa : f a with
    | error e' =>
      right
      have he := hf a e' hfa
      subst he
      rw [except_bind_error]
    | ok b =>
      rcases ih with ⟨ys, hys⟩ | hys
      · exact Or.inl ⟨b :: ys, by
          rw [except_bind_ok, hys, except_bind_ok, except_pure_eq_ok]⟩
      · right
        rw [except_bind_ok, hys, except_bind_error]

/-- If one element fails and the function has the single error `e`, the
whole `mapM` fails with `e`. -/
theorem exceptMapM_error_of_mem {α β ε : Type} (f : α → Except ε β) (e : ε)
    (hf : ∀ x e', f x = .error e' → e' = e)
    (l : List α) (x : α) (hx : x ∈ l) (e0 : ε) (hfx : f x = .error e0) :
    l.mapM f = .error e := by
  rcases exceptMapM_uniform_error f e hf l with ⟨ys, hys⟩ | hys
  · rcases exceptMapM_ok_of_mem f l ys hys x hx with ⟨y, _, hfy⟩
    rw [hfx] at hfy
    cases hfy
  · exact hys

/-! Closed forms of the enumerate-and-index constructions. -/

theorem length_extendedGraphVariables (stem : String) (n : Nat) :
    (extendedGraphVariables stem n).length = n := by
  simp [extendedGraphVariables]

theorem betp_aux (ps : List TriplePattern) :
    ∀ (gv : List Variable) (i : Nat), i + ps.length ≤ gv.length →
    ((List.enumFrom i ps).mapM (fun p =>
      match gv.get? p.1 with
      | some g => Except.ok (TriplePatternWithGraphVar.mk p.2 g)
      | none => Except.error ZkSparqlError.extendedQueryFailed))
    = .ok (List.zipWith TriplePatternWithGraphVar.mk ps (gv.drop i)) := by
  induction ps with
  | nil => intro gv i h; rfl
  | cons tp ps ih =>
    intro gv i h
    have hi : i < gv.length := by simp at h; omega
    have hg : gv.get? i = some gv[i] := by
      simp [List.get?_eq_getElem?, List.getElem?_eq_getElem hi]
    show ((i, tp) :: List.enumFrom (i+1) ps).mapM _ = _
    rw [List.mapM_cons]
    simp only [hg]
    rw [except_bind_ok, ih gv (i+1) (by simp at h ⊢; omega), except_bind_ok,
        except_pure_eq_ok, List.drop_eq_getElem_cons hi, List.zipWith_cons_cons]

/-- `build_extended_triple_patterns` pairs patterns with graph variables
by index: with enough graph variables it is the zip. -/
theorem build_extended_triple_patterns_eq (ps : List TriplePattern)
    (gv : List Variable) (h : ps.length ≤ gv.length) :
    build_extended_triple_patterns ps gv =
      .ok (List.zipWith TriplePatternWithGraphVar.mk ps gv) := by
  have h0 := betp_aux ps gv 0 (by simpa)
  rw [List.drop_zero] at h0
  exact h0

theorem construct_wrapped_aux (ps : List TriplePattern) :
    ∀ (gv : List Variable) (i : Nat), i + ps.length ≤ gv.length →
    ((List.enumFrom i ps).mapM (fun p =>
      match gv.get? p.1 with
      | some v => Except.ok (GraphPattern.graph (.var v) (.bgp [p.2]))
      | none => Except.error (HttpError.badRequest "extended_variables: out of index")))
    = .ok (List.zipWith graphWrap ps (gv.drop i)) := by
  induction ps with
  | nil => intro gv i h; rfl
  | cons tp ps ih =>
    intro gv i h
    have hi : i < gv.length := by simp at h; omega
    have hg : gv.get? i = some gv[i] := by
      simp [List.get?_eq_getElem?, List.getElem?_eq_getElem hi]
    show ((i, tp) :: List.enumFrom (i+1) ps).mapM _ = _
    rw [List.mapM_cons]
    simp only [hg]
    rw [except_bind_ok, ih gv (i+1) (by simp at h ⊢; omega), except_bind_ok,
        except_pure_eq_ok, List.drop_eq_getElem_cons hi, List.zipWith_cons_cons]
    rfl

/-- A nonempty list of subject-filter conjuncts reduces to some
expression. -/
theorem reduceAnd_subjectFilter_isSome (gv : List Variable) (h : gv ≠ []) :
    ∃ sf, reduceAnd (gv.map subjectFilterTerm) = some sf := by
  cases gv with
  | nil => exact absurd rfl h
  | cons g gv => exact ⟨_, rfl⟩

/-- Characterization of `build_extended_query` when the subject filter
reduction succeeds: the result is the LIMIT wrap over the FILTER wrap
(with the claim's filter composition) over the VALUES wrap over the
graph-wrapped join chain, and the variable list is
`disclosed_variables ++ graph variables`. -/
theorem build_extended_query_eq (q : ZkQuery) (gv : List Variable)
    (etps : List TriplePatternWithGraphVar) (sf : Expression)
    (h : reduceAnd (gv.map subjectFilterTerm) = some sf) :
    build_extended_query q gv etps =
      .ok ⟨limitW q.limit (.filter (finalFilterExpr q.filter sf)
             (valuesW q.values (joinChain (etps.map (fun p =>
               graphWrap p.triple_pattern p.graph_var))))),
           q.disclosed_variables ++ gv⟩ := by
  unfold build_extended_query
  rw [h]
  cases hf : q.filter <;> cases hv : q.values <;> cases hl : q.limit <;>
    simp [limitW, valuesW, finalFilterExpr, joinChain, graphWrap, hf, hv, hl]

/-! Lemmas about the blank-node lifting. -/

theorem mem_insertVar (v w : Variable) (l : List Variable) :
    v ∈ insertVar w l ↔ v = w ∨ v ∈ l := by
  unfold insertVar
  split
  · rename_i hw
    exact ⟨fun h => Or.inr h, fun h => h.elim (fun he => he ▸ hw) id⟩
  · simp [List.mem_append, or_comm]

theorem blanknodeToVariable_fst (t : TermPattern) (vars : List Variable) :
    (blanknodeToVariable t vars).1 = liftTerm t := by
  cases t <;> rfl

theorem mem_blanknodeToVariable_snd (t : TermPattern) (vars : List Variable)
    (v : Variable) :
    v ∈ (blanknodeToVariable t vars).2 ↔
      v ∈ vars ∨ (∃ b, t = .blankNode b ∧ v = ⟨b.id⟩) := by
  cases t <;> simp [blanknodeToVariable, mem_insertVar] <;> tauto

theorem replaceFold_fst (ps : List TriplePattern) :
    ∀ (acc : List TriplePattern) (vars : List Variable),
    (ps.foldl (fun acc p =>
      let s := blanknodeToVariable p.subject acc.2
      let o := blanknodeToVariable p.object s.2
      (acc.1 ++ [⟨s.1, p.predicate, o.1⟩], o.2)) (acc, vars)).1
    = acc ++ ps.map liftPattern := by
  induction ps with
  | nil => intro acc vars; simp
  | cons p ps ih =>
    intro acc vars
    simp only [List.foldl_cons, List.map_cons]
    rw [ih]
    simp [blanknodeToVariable_fst, liftPattern]

theorem mem_step_snd (p : TriplePattern) (vars : List Variable) (v : Variable) :
    v ∈ (blanknodeToVariable p.object (blanknodeToVariable p.subject vars).2).2 ↔
      v ∈ vars ∨ v ∈ blankVarsOf p := by
  rw [mem_blanknodeToVariable_snd, mem_blanknodeToVariable_snd]
  simp only [blankVarsOf, List.mem_append]
  cases hs : p.subject <;> cases ho : p.object <;> simp <;> tauto

theorem replaceFold_snd (ps : List TriplePattern) :
    ∀ (acc : List TriplePattern) (vars : List Variable) (v : Variable),
    (v ∈ (ps.foldl (fun acc p =>
      let s := blanknodeToVariable p.subject acc.2
      let o := blanknodeToVariable p.object s.2
      (acc.1 ++ [⟨s.1, p.predicate, o.1⟩], o.2)) (acc, vars)).2
    ↔ v ∈ vars ∨ ∃ tp ∈ ps, v ∈ blankVarsOf tp) := by
  induction ps with
  | nil => intro acc vars v; simp
  | cons p ps ih =>
    intro acc vars v
    simp only [List.foldl_cons]
    rw [ih, mem_step_snd]
    constructor
    · rintro ((h | h) | ⟨tp, htp, hv⟩)
      · exact Or.inl h
      · exact Or.inr ⟨p, List.mem_cons_self .., h⟩
      · exact Or.inr ⟨tp, List.mem_cons_of_mem _ htp, hv⟩
    · rintro (h | ⟨tp, htp, hv⟩)
      · exact Or.inl (Or.inl h)
      · rcases List.mem_cons.mp htp with rfl | htp
        · exact Or.inl (Or.inr hv)
        · exact Or.inr ⟨tp, htp, hv⟩

/-- The lifted query: patterns are the pointwise lifting of the user's
patterns. -/
theorem replace_patterns_eq (q : ZkQuery) :
    (replace_blanknodes_with_variables q).patterns = q.patterns.map liftPattern := by
  unfold replace_blanknodes_with_variables
  exact replaceFold_fst q.patterns [] q.in_scope_variables

/-- The lifted query: its in-scope set holds exactly the original
in-scope variables and the variables made from blank nodes. -/
theorem replace_in_scope_mem (q : ZkQuery) (v : Variable) :
    v ∈ (replace_blanknodes_with_variables q).in_scope_variables ↔
      v ∈ q.in_scope_variables ∨ ∃ tp ∈ q.patterns, v ∈ blankVarsOf tp := by
  unfold replace_blanknodes_with_variables
  exact replaceFold_snd q.patterns [] q.in_scope_variables v

theorem replace_disclosed_eq (q : ZkQuery) :
    (replace_blanknodes_with_variables q).disclosed_variables =
      q.disclosed_variables := rfl

theorem replace_filter_eq (q : ZkQuery) :
    (replace_blanknodes_with_variables q).filter = q.filter := rfl

theorem replace_values_eq (q : ZkQuery) :
    (replace_blanknodes_with_variables q).values = q.values := rfl

theorem replace_limit_eq (q : ZkQuery) :
    (replace_blanknodes_with_variables q).limit = q.limit := rfl

theorem replace_patterns_length (q : ZkQuery) :
    (replace_blanknodes_with_variables q).patterns.length = q.patterns.length := by
  rw [replace_patterns_eq, List.length_map]

/-! Lemmas about the join chain. -/

theorem collect_foldl_join (xs : List GraphPattern) :
    ∀ a, collectBgpTriples (xs.foldl .join a) =
      collectBgpTriples a ++ (xs.map collectBgpTriples).flatten := by
  induction xs with
  | nil => intro a; simp
  | cons x xs ih =>
    intro a
    simp only [List.foldl_cons, List.map_cons, List.flatten_cons]
    rw [ih]
    simp [collectBgpTriples, List.append_assoc]

theorem collectBgpTriples_joinChain (ws : List GraphPattern) :
    collectBgpTriples (joinChain ws) = (ws.map collectBgpTriples).flatten := by
  cases ws with
  | nil => rfl
  | cons w ws =>
    show collectBgpTriples (ws.foldl .join w) = _
    rw [collect_foldl_join]
    simp

theorem collect_zip_graphWrap (ps : List TriplePattern) :
    ∀ (gv : List Variable), ps.length ≤ gv.length →
    ((List.zipWith graphWrap ps gv).map collectBgpTriples).flatten = ps := by
  induction ps with
  | nil => intro gv h; simp
  | cons p ps ih =>
    intro gv h
    cases gv with
    | nil => simp at h
    | cons g gv =>
      simp only [List.zipWith_cons_cons, List.map_cons, List.flatten_cons]
      rw [ih gv (by simpa using h)]
      rfl

theorem chainLeaves_foldl_join (xs : List GraphPattern) :
    ∀ a, chainLeaves (xs.foldl .join a) = chainLeaves a ++ xs := by
  induction xs with
  | nil => intro a; simp
  | cons x xs ih =>
    intro a
    simp only [List.foldl_cons]
    rw [ih]
    simp [chainLeaves]

theorem chainLeaves_joinChain_graphWrap (w : GraphPattern) (ws : List GraphPattern)
    (hw : ∀ l r, w ≠ .join l r) :
    chainLeaves (joinChain (w :: ws)) = w :: ws := by
  show chainLeaves (ws.foldl .join w) = _
  rw [chainLeaves_foldl_join]
  cases w <;> first
    | rfl
    | exact absurd rfl (hw _ _)

theorem illgc_foldl_join (xs : List GraphPattern) :
    ∀ a, isLeftLeaningGraphChain a = true →
      (∀ x ∈ xs, isLeftLeaningGraphChain.isGraphLeaf x = true) →
      isLeftLeaningGraphChain (xs.foldl .join a) = true := by
  induction xs with
  | nil => intro a ha _; exact ha
  | cons x xs ih =>
    intro a ha hx
    simp only [List.foldl_cons]
    refine ih _ ?_ (fun y hy => hx y (List.mem_cons_of_mem _ hy))
    show (isLeftLeaningGraphChain a && isLeftLeaningGraphChain.isGraphLeaf x) = true
    rw [ha, hx x (List.mem_cons_self ..)]
    rfl

/-! Closed forms of the three top-level builders. -/

theorem egv_ne_nil (stem : String) (n : Nat) (h : n ≠ 0) :
    extendedGraphVariables stem n ≠ [] := by
  intro he
  have hl := length_extendedGraphVariables stem n
  rw [he] at hl
  exact h hl.symm

/-- `build_extended_fetch_query` on a query with at least one pattern:
the full shape of the produced SELECT. -/
theorem build_extended_fetch_query_eq (q : ZkQuery) (h : q.patterns ≠ []) :
    ∃ sf, reduceAnd ((extendedGraphVariables vcVariableStem
        q.patterns.length).map subjectFilterTerm) = some sf ∧
      build_extended_fetch_query q =
        .ok (.select none (.distinct (.project
          (limitW q.limit (.filter (finalFilterExpr q.filter sf)
            (valuesW q.values (joinChain (List.zipWith graphWrap q.patterns
              (extendedGraphVariables vcVariableStem q.patterns.length))))))
          (q.disclosed_variables ++
            extendedGraphVariables vcVariableStem q.patterns.length))) none) := by
  obtain ⟨sf, hsf⟩ := reduceAnd_subjectFilter_isSome _
    (egv_ne_nil vcVariableStem q.patterns.length
      (by simpa using fun hp => h (List.length_eq_zero.mp hp)))
  refine ⟨sf, hsf, ?_⟩
  unfold build_extended_fetch_query
  dsimp only
  rw [build_extended_triple_patterns_eq _ _
        (by rw [length_extendedGraphVariables]),
      except_bind_ok,
      build_extended_query_eq q _ _ sf hsf,
      except_bind_ok]
  rw [List.map_zipWith]

/-- `build_extended_prove_query` on a query with at least one pattern:
the full shape of the produced SELECT (projecting the lifted query's
in-scope variables) and the returned pattern-with-graph-variable list. -/
theorem build_extended_prove_query_eq (q : ZkQuery) (h : q.patterns ≠ []) :
    ∃ sf, reduceAnd ((extendedGraphVariables vcVariableStem
        q.patterns.length).map subjectFilterTerm) = some sf ∧
      build_extended_prove_query q =
        .ok (.select none (.distinct (.project
          (limitW q.limit (.filter (finalFilterExpr q.filter sf)
            (valuesW q.values (joinChain (List.zipWith graphWrap
              (q.patterns.map liftPattern)
              (extendedGraphVariables vcVariableStem q.patterns.length))))))
          (replace_blanknodes_with_variables q).in_scope_variables)) none,
        List.zipWith TriplePatternWithGraphVar.mk (q.patterns.map liftPattern)
          (extendedGraphVariables vcVariableStem q.patterns.length)) := by
  obtain ⟨sf, hsf⟩ := reduceAnd_subjectFilter_isSome _
    (egv_ne_nil vcVariableStem q.patterns.length
      (by simpa using fun hp => h (List.length_eq_zero.mp hp)))
  refine ⟨sf, hsf, ?_⟩
  unfold build_extended_prove_query
  dsimp only
  rw [replace_patterns_eq, List.length_map,
      build_extended_triple_patterns_eq _ _
        (by rw [length_extendedGraphVariables, List.length_map]),
      except_bind_ok]
  rw [build_extended_query_eq _ _ _ sf hsf, except_bind_ok]
  rw [List.map_zipWith]
  rfl

/-- zk.rs `construct_extended_query` always succeeds, with the user
filter (and no subject filter) wrapped over the chain. -/
theorem construct_extended_query_eq (q : ZkQuery) :
    construct_extended_query q =
      .ok (.select none (.distinct (.project
        (limitW q.limit (filterW q.filter
          (valuesW q.values (joinChain (List.zipWith graphWrap q.patterns
            (extendedGraphVariables "ggggg" q.patterns.length))))))
        (q.disclosed_variables ++
          extendedGraphVariables "ggggg" q.patterns.length))) none) := by
  unfold construct_extended_query
  dsimp only
  have hw := construct_wrapped_aux q.patterns
    (extendedGraphVariables "ggggg" q.patterns.length) 0
    (by rw [length_extendedGraphVariables]; omega)
  rw [List.drop_zero] at hw
  rw [show q.patterns.enum = List.enumFrom 0 q.patterns from rfl, hw]
  cases hf : q.filter <;> cases hv : q.values <;> cases hl : q.limit <;>
    simp [limitW, valuesW, filterW, joinChain, hf, hv, hl]

theorem mem_zipWith_graphWrap (ps : List TriplePattern) :
    ∀ (gv : List Variable) (x : GraphPattern), x ∈ List.zipWith graphWrap ps gv →
      ∃ tp g, x = graphWrap tp g := by
  induction ps with
  | nil => intro gv x hx; simp at hx
  | cons p ps ih =>
    intro gv x hx
    cases gv with
    | nil => simp at hx
    | cons g gv =>
      rcases List.mem_cons.mp hx with rfl | hx
      · exact ⟨p, g, rfl⟩
      · exact ih gv x hx

/-- A nonempty graph-wrapped zip folds to a left-leaning chain. -/
theorem illgc_joinChain_zip (ps : List TriplePattern) (gv : List Variable)
    (hp : ps ≠ []) (hg : gv ≠ []) :
    isLeftLeaningGraphChain (joinChain (List.zipWith graphWrap ps gv)) = true := by
  cases ps with
  | nil => exact absurd rfl hp
  | cons p ps =>
    cases gv with
    | nil => exact absurd rfl hg
    | cons g gv =>
      simp only [List.zipWith_cons_cons]
      show isLeftLeaningGraphChain ((List.zipWith graphWrap ps gv).foldl
        .join (graphWrap p g)) = true
      refine illgc_foldl_join _ _ rfl ?_
      intro x hx
      rcases mem_zipWith_graphWrap ps gv x hx with ⟨tp, g', rfl⟩
      rfl

/-- The leaves of the chain are the graph-wrapped patterns, in order. -/
theorem chainLeaves_joinChain_zip (ps : List TriplePattern) (gv : List Variable)
    (hp : ps ≠ []) (hg : gv ≠ []) :
    chainLeaves (joinChain (List.zipWith graphWrap ps gv)) =
      List.zipWith graphWrap ps gv := by
  cases ps with
  | nil => exact absurd rfl hp
  | cons p ps =>
    cases gv with
    | nil => exact absurd rfl hg
    | cons g gv =>
      simp only [List.zipWith_cons_cons]
      exact chainLeaves_joinChain_graphWrap _ _ (by simp [graphWrap])

/-! The claims. -/

/-- C1: the spec says the prove-variant extended query projects
`in_scope_variables ++ G0..G{n-1}` wrapped in `Distinct`. On the query
of `SELECT ?s WHERE { ?s <p> ?o }` the code projects only
`in_scope_variables` (`[?s, ?o]`): the synthetic graph variable `__vc0`
is generated but absent from the projection, so the projection differs
from `in_scope_variables ++ [__vc0]` — `build_extended_prove_query`
discards the combined variable list of its `ExtendedQuery`. -/
theorem c1_prove_projection_omits_graph_vars :
    (build_extended_prove_query zkQ1).toOption.map
        (fun r => projectionVars r.1) = some (some [varS, varO]) ∧
    extendedGraphVariables vcVariableStem zkQ1.patterns.length =
      [⟨"__vc0"⟩] ∧
    ([varS, varO] : List Variable) ≠ [varS, varO] ++ [⟨"__vc0"⟩] := by
  refine ⟨rfl, by decide, by decide⟩

/-- C2 counterexample: on the filterless query of
`SELECT ?s WHERE { ?s <p> ?o }`, zk.rs `construct_extended_query`
produces an extended query with no `Filter` node at all — the claimed
subject filter `StrEnds(Str(G0), SUBJECT_GRAPH_SUFFIX)` is absent. -/
theorem c2_counterexample :
    ∃ Q, construct_extended_query zkQ1 = .ok Q ∧ queryHasFilter Q = false :=
  ⟨_, rfl, rfl⟩

/-- C9 counterexample: on a `ZkQuery` with an empty pattern list,
builder.rs's build does not succeed: `build_extended_fetch_query` fails
with `ExtendedQueryFailed` (no subject filter can be reduced). -/
theorem c9_counterexample :
    build_extended_fetch_query zkQEmpty = .error .extendedQueryFailed := rfl

/-- C7 counterexample: the user may write
`SELECT ?ggggg0 WHERE { ?ggggg0 <p> ?o }`; zk.rs then synthesizes the
graph variable `ggggg0` for the first pattern, which collides with the
disclosed (and in-scope) user variable `?ggggg0` — the extended query
even projects the duplicate list `[?ggggg0, ?ggggg0]`. -/
theorem c7_counterexample :
    ∃ Q, construct_extended_query zkQCollide = .ok Q ∧
      projectionVars Q = some [⟨"ggggg0"⟩, ⟨"ggggg0"⟩] ∧
      (⟨"ggggg0"⟩ : Variable) ∈ zkQCollide.disclosed_variables ∧
      (⟨"ggggg0"⟩ : Variable) ∈ zkQCollide.in_scope_variables ∧
      extendedGraphVariables "ggggg" zkQCollide.patterns.length =
        [⟨"ggggg0"⟩] := by
  refine ⟨_, rfl, by decide, by decide, by decide, by decide⟩

/-- C7 amended: the graph-variable stems (`__vc` in builder.rs, `ggggg`
in zk.rs) are used blindly, so freshness holds only under the proviso
that no in-scope or disclosed variable of the query is named
`stem ++ i` for an index `i` below the pattern count; under that proviso
no synthesized graph variable collides with them. -/
theorem c7_amended (q : ZkQuery) (stem : String)
    (h1 : ∀ v ∈ q.in_scope_variables, ∀ i < q.patterns.length,
      v.name ≠ stem ++ toString i)
    (h2 : ∀ v ∈ q.disclosed_variables, ∀ i < q.patterns.length,
      v.name ≠ stem ++ toString i) :
    ∀ g ∈ extendedGraphVariables stem q.patterns.length,
      g ∉ q.in_scope_variables ∧ g ∉ q.disclosed_variables := by
  intro g hg
  unfold extendedGraphVariables at hg
  rcases List.mem_map.mp hg with ⟨i, hi, rfl⟩
  have hilt : i < q.patterns.length := List.mem_range.mp hi
  exact ⟨fun hmem => h1 _ hmem i hilt rfl, fun hmem => h2 _ hmem i hilt rfl⟩

/-- C7 amended, witnessed on `SELECT ?s WHERE { ?s <p> ?o }` with the
reserved stem `__vc`: the synthesized `__vc0` collides with nothing. -/
theorem c7_amended_witness :
    (⟨"__vc0"⟩ : Variable) ∉ zkQ1.in_scope_variables ∧
    (⟨"__vc0"⟩ : Variable) ∉ zkQ1.disclosed_variables :=
  c7_amended zkQ1 "__vc" (by decide) (by decide) ⟨"__vc0"⟩ (by decide)

/-- C9 amended: each pattern `Pi` is wrapped as `Graph(Gi, Bgp([Pi]))`
and the nonempty list folds left-to-right into a left-leaning `Join`
chain whose leaves are exactly those wraps (and whose BGP triples are
exactly the user patterns); both `build_extended_fetch_query` (stem
`__vc`) and `construct_extended_query` (stem `ggggg`) embed this chain.
For an empty pattern list the chain is the empty group pattern and
zk.rs's `construct_extended_query` succeeds, but builder.rs's build
fails with `ExtendedQueryFailed` instead of succeeding. -/
theorem c9_amended :
    (∀ (ps : List TriplePattern) (gv : List Variable), ps ≠ [] → gv ≠ [] →
      isLeftLeaningGraphChain (joinChain (List.zipWith graphWrap ps gv)) = true ∧
      chainLeaves (joinChain (List.zipWith graphWrap ps gv)) =
        List.zipWith graphWrap ps gv ∧
      (ps.length ≤ gv.length →
        collectBgpTriples (joinChain (List.zipWith graphWrap ps gv)) = ps)) ∧
    (∀ q : ZkQuery, q.patterns ≠ [] →
      (∃ sf, build_extended_fetch_query q =
        .ok (.select none (.distinct (.project
          (limitW q.limit (.filter (finalFilterExpr q.filter sf)
            (valuesW q.values (joinChain (List.zipWith graphWrap q.patterns
              (extendedGraphVariables vcVariableStem q.patterns.length))))))
          (q.disclosed_variables ++
            extendedGraphVariables vcVariableStem q.patterns.length))) none)) ∧
      construct_extended_query q =
        .ok (.select none (.distinct (.project
          (limitW q.limit (filterW q.filter
            (valuesW q.values (joinChain (List.zipWith graphWrap q.patterns
              (extendedGraphVariables "ggggg" q.patterns.length))))))
          (q.disclosed_variables ++
            extendedGraphVariables "ggggg" q.patterns.length))) none)) ∧
    (∀ q : ZkQuery, q.patterns = [] →
      joinChain (List.zipWith graphWrap q.patterns
        (extendedGraphVariables vcVariableStem q.patterns.length)) = .bgp [] ∧
      build_extended_fetch_query q = .error .extendedQueryFailed ∧
      construct_extended_query q =
        .ok (.select none (.distinct (.project
          (limitW q.limit (filterW q.filter (valuesW q.values (.bgp []))))
          q.disclosed_variables)) none)) := by
  refine ⟨?_, ?_, ?_⟩
  · intro ps gv hp hg
    exact ⟨illgc_joinChain_zip ps gv hp hg,
           chainLeaves_joinChain_zip ps gv hp hg,
           fun hl => by
             rw [collectBgpTriples_joinChain]
             exact collect_zip_graphWrap ps gv hl⟩
  · intro q hp
    constructor
    · obtain ⟨sf, _, hq⟩ := build_extended_fetch_query_eq q hp
      exact ⟨sf, hq⟩
    · exact construct_extended_query_eq q
  · intro q hp
    refine ⟨by rw [hp]; rfl, ?_, ?_⟩
    · rcases q with ⟨d, isv, ps, f, v, l⟩
      simp only at hp
      subst hp
      rfl
    · have hc := construct_extended_query_eq q
      rw [hp] at hc
      simpa [joinChain, reduceJoin, extendedGraphVariables] using hc

/-- C9 amended, witnessed on `SELECT ?s WHERE { ?s <p> ?o }` (chain of
one graph wrap, left-leaning) and on the empty-pattern query (fetch
build fails, zk.rs build succeeds). -/
theorem c9_amended_witness :
    isLeftLeaningGraphChain (joinChain (List.zipWith graphWrap zkQ1.patterns
      (extendedGraphVariables vcVariableStem zkQ1.patterns.length))) = true ∧
    build_extended_fetch_query zkQEmpty = .error .extendedQueryFailed :=
  ⟨(c9_amended.1 zkQ1.patterns
      (extendedGraphVariables vcVariableStem zkQ1.patterns.length)
      (by decide) (by decide)).1,
   (c9_amended.2.2 zkQEmpty (by decide)).2.1⟩

theorem foldl_join_not_filter (xs : List GraphPattern) :
    ∀ a, headIsFilter a = false → headIsFilter (xs.foldl .join a) = false := by
  induction xs with
  | nil => intro a h; exact h
  | cons x xs ih => intro a _; exact ih (.join a x) rfl

theorem headIsFilter_joinChain_zip (ps : List TriplePattern) (gv : List Variable) :
    headIsFilter (joinChain (List.zipWith graphWrap ps gv)) = false := by
  cases ps with
  | nil => rfl
  | cons p ps =>
    cases gv with
    | nil => rfl
    | cons g gv =>
      simp only [List.zipWith_cons_cons]
      exact foldl_join_not_filter _ _ rfl

theorem headIsFilter_valuesW_zip (values : Option ZkQueryValues)
    (ps : List TriplePattern) (gv : List Variable) :
    headIsFilter (valuesW values (joinChain (List.zipWith graphWrap ps gv)))
      = false := by
  cases values with
  | none => exact headIsFilter_joinChain_zip ps gv
  | some v => rfl

theorem coreFilterExpr_slice_not_filter (X : GraphPattern)
    (h : headIsFilter X = false) (s : Nat) (l : Option Nat) (vs : List Variable) :
    coreFilterExpr (.select none (.distinct (.project (.slice X s l) vs)) none)
      = none := by
  cases X <;> first
    | rfl
    | exact absurd h (by simp [headIsFilter])

theorem coreFilterExpr_not_filter (X : GraphPattern)
    (h : headIsFilter X = false) (h2 : headIsSlice X = false)
    (vs : List Variable) :
    coreFilterExpr (.select none (.distinct (.project X vs)) none) = none := by
  cases X <;> simp_all [headIsFilter, headIsSlice, coreFilterExpr]

theorem foldl_join_not_slice (xs : List GraphPattern) :
    ∀ a, headIsSlice a = false → headIsSlice (xs.foldl .join a) = false := by
  induction xs with
  | nil => intro a h; exact h
  | cons x xs ih => intro a _; exact ih (.join a x) rfl

theorem headIsSlice_joinChain_zip (ps : List TriplePattern) (gv : List Variable) :
    headIsSlice (joinChain (List.zipWith graphWrap ps gv)) = false := by
  cases ps with
  | nil => rfl
  | cons p ps =>
    cases gv with
    | nil => rfl
    | cons g gv =>
      simp only [List.zipWith_cons_cons]
      exact foldl_join_not_slice _ _ rfl

theorem headIsSlice_valuesW_zip (values : Option ZkQueryValues)
    (ps : List TriplePattern) (gv : List Variable) :
    headIsSlice (valuesW values (joinChain (List.zipWith graphWrap ps gv)))
      = false := by
  cases values with
  | none => exact headIsSlice_joinChain_zip ps gv
  | some v => rfl

/-- `coreFilterExpr` of a built SELECT whose projected pattern is the
LIMIT wrap of a `Filter` node: the filter expression. -/
theorem coreFilterExpr_limitW_filter (limit : Option ZkQueryLimit)
    (e : Expression) (inner : GraphPattern) (vs : List Variable) :
    coreFilterExpr (.select none (.distinct (.project
      (limitW limit (.filter e inner)) vs)) none) = some e := by
  cases limit <;> rfl

/-- C2 amended: the extended queries of builder.rs
(`build_extended_fetch_query`, `build_extended_prove_query`) carry a
`Filter` node whose expression is `And(userFilter, subjectFilter)` when
the `ZkQuery` has a filter and exactly the subject filter when it has
none; zk.rs `construct_extended_query` instead carries the user filter
alone when one is present and no `Filter` node at all otherwise. -/
theorem c2_amended :
    (∀ q : ZkQuery, q.patterns ≠ [] →
      ∃ sf Q, reduceAnd ((extendedGraphVariables vcVariableStem
          q.patterns.length).map subjectFilterTerm) = some sf ∧
        build_extended_fetch_query q = .ok Q ∧
        coreFilterExpr Q = some (finalFilterExpr q.filter sf)) ∧
    (∀ q : ZkQuery, q.patterns ≠ [] →
      ∃ sf Q etps, reduceAnd ((extendedGraphVariables vcVariableStem
          q.patterns.length).map subjectFilterTerm) = some sf ∧
        build_extended_prove_query q = .ok (Q, etps) ∧
        coreFilterExpr Q = some (finalFilterExpr q.filter sf)) ∧
    (∀ q : ZkQuery, ∃ Q, construct_extended_query q = .ok Q ∧
        coreFilterExpr Q = q.filter) := by
  refine ⟨?_, ?_, ?_⟩
  · intro q hp
    obtain ⟨sf, hsf, hq⟩ := build_extended_fetch_query_eq q hp
    exact ⟨sf, _, hsf, hq, coreFilterExpr_limitW_filter ..⟩
  · intro q hp
    obtain ⟨sf, hsf, hq⟩ := build_extended_prove_query_eq q hp
    exact ⟨sf, _, _, hsf, hq, coreFilterExpr_limitW_filter ..⟩
  · intro q
    refine ⟨_, construct_extended_query_eq q, ?_⟩
    cases hf : q.filter with
    | some f =>
      rw [show filterW (some f) = fun inner => GraphPattern.filter f inner from rfl]
      exact coreFilterExpr_limitW_filter ..
    | none =>
      rw [show ∀ X, filterW none X = X from fun X => rfl]
      cases hl : q.limit with
      | some l =>
        exact coreFilterExpr_slice_not_filter _ (headIsFilter_valuesW_zip ..) ..
      | none =>
        exact coreFilterExpr_not_filter _ (headIsFilter_valuesW_zip ..)
          (headIsSlice_valuesW_zip ..) _

/-- C2 amended, witnessed on `SELECT ?s WHERE { ?s <p> ?o }`: the fetch
query's filter is the subject filter, and the zk.rs query's filter is
the (absent) user filter. -/
theorem c2_amended_witness :
    (∃ sf Q, reduceAnd ((extendedGraphVariables vcVariableStem
        zkQ1.patterns.length).map subjectFilterTerm) = some sf ∧
      build_extended_fetch_query zkQ1 = .ok Q ∧
      coreFilterExpr Q = some (finalFilterExpr zkQ1.filter sf)) ∧
    (∃ Q, construct_extended_query zkQ1 = .ok Q ∧
      coreFilterExpr Q = zkQ1.filter) :=
  ⟨c2_amended.1 zkQ1 (by decide), c2_amended.2.2 zkQ1⟩

theorem collect_through_wraps (limit : Option ZkQueryLimit)
    (values : Option ZkQueryValues) (e : Expression) (X : GraphPattern) :
    collectBgpTriples (limitW limit (.filter e (valuesW values X))) =
      collectBgpTriples X := by
  cases limit <;> cases values <;> simp [limitW, valuesW, collectBgpTriples]

theorem map_tp_zipWith_mk (l1 : List TriplePattern) :
    ∀ l2 : List Variable, l1.length ≤ l2.length →
    (List.zipWith TriplePatternWithGraphVar.mk l1 l2).map
      (fun p => p.triple_pattern) = l1 := by
  induction l1 with
  | nil => intro l2 h; simp
  | cons tp l1 ih =>
    intro l2 h
    cases l2 with
    | nil => simp at h
    | cons g l2 =>
      simp only [List.zipWith_cons_cons, List.map_cons]
      rw [ih l2 (by simpa using h)]

/-- C8: in the prove variant only, every blank-node term pattern in
subject or object position is replaced by a variable of the blank
node's name (predicates and other terms unchanged), each such variable
joins the in-scope set, and the fetch variant leaves the user patterns
untouched: the fetch query's BGP triples are exactly `q.patterns` while
the prove query's (and its returned pattern list's) are their pointwise
lifting. -/
theorem c8_blank_node_lifting :
    (∀ q : ZkQuery, (replace_blanknodes_with_variables q).patterns =
        q.patterns.map liftPattern) ∧
    (∀ (q : ZkQuery) (v : Variable),
        v ∈ (replace_blanknodes_with_variables q).in_scope_variables ↔
        v ∈ q.in_scope_variables ∨ ∃ tp ∈ q.patterns, v ∈ blankVarsOf tp) ∧
    (∀ q : ZkQuery, q.patterns ≠ [] →
      ∃ Q, build_extended_fetch_query q = .ok Q ∧
        queryTriples Q = q.patterns) ∧
    (∀ q : ZkQuery, q.patterns ≠ [] →
      ∃ Q etps, build_extended_prove_query q = .ok (Q, etps) ∧
        queryTriples Q = q.patterns.map liftPattern ∧
        etps.map (fun p => p.triple_pattern) = q.patterns.map liftPattern) := by
  refine ⟨replace_patterns_eq, replace_in_scope_mem, ?_, ?_⟩
  · intro q hp
    obtain ⟨sf, _, hq⟩ := build_extended_fetch_query_eq q hp
    refine ⟨_, hq, ?_⟩
    show collectBgpTriples _ = _
    simp only [collectBgpTriples]
    rw [collect_through_wraps, collectBgpTriples_joinChain,
        collect_zip_graphWrap _ _ (by rw [length_extendedGraphVariables])]
  · intro q hp
    obtain ⟨sf, _, hq⟩ := build_extended_prove_query_eq q hp
    refine ⟨_, _, hq, ?_, ?_⟩
    · show collectBgpTriples _ = _
      simp only [collectBgpTriples]
      rw [collect_through_wraps, collectBgpTriples_joinChain,
          collect_zip_graphWrap _ _
            (by rw [length_extendedGraphVariables, List.length_map])]
    · exact map_tp_zipWith_mk _ _
        (by rw [length_extendedGraphVariables, List.length_map])

/-- C8, witnessed on `SELECT ?s WHERE { ?s <p> _:x }`: the prove query's
BGP triple is `(?s, <p>, ?x)` — the blank node lifted — while the fetch
query's is the original `(?s, <p>, _:x)`. -/
theorem c8_blank_node_lifting_witness :
    (∃ Q, build_extended_fetch_query zkQBlank = .ok Q ∧
      queryTriples Q = zkQBlank.patterns) ∧
    (∃ Q etps, build_extended_prove_query zkQBlank = .ok (Q, etps) ∧
      queryTriples Q = zkQBlank.patterns.map liftPattern ∧
      etps.map (fun p => p.triple_pattern) = zkQBlank.patterns.map liftPattern) :=
  ⟨c8_blank_node_lifting.2.2.1 zkQBlank (by decide),
   c8_blank_node_lifting.2.2.2 zkQBlank (by decide)⟩

/-- Whatever `parse_zk_common` accepts keeps the caller's disclosed
variables verbatim. -/
theorem parse_zk_common_disclosed (p : GraphPattern) (d : List Variable)
    (l : Option ZkQueryLimit) (z : ZkQuery)
    (h : parse_zk_common p d l = .ok z) : z.disclosed_variables = d := by
  unfold parse_zk_common at h
  split at h
  all_goals try split at h
  all_goals try split at h
  all_goals first
    | (cases h; rfl)
    | cases h

/-- C10: every extended query any of the three builders returns is a
SELECT whose root is `Distinct(Project(...))` with no dataset and no
base IRI; and an ASK parses with an empty disclosed-variable list, so
the same shape results for ASK inputs. -/
theorem c10_extended_query_shape :
    (∀ (q : ZkQuery) (Q : Query), build_extended_fetch_query q = .ok Q →
      ∃ inner vs, Q = .select none (.distinct (.project inner vs)) none) ∧
    (∀ (q : ZkQuery) (Q : Query) (etps : List TriplePatternWithGraphVar),
      build_extended_prove_query q = .ok (Q, etps) →
      ∃ inner vs, Q = .select none (.distinct (.project inner vs)) none) ∧
    (∀ (q : ZkQuery) (Q : Query), construct_extended_query q = .ok Q →
      ∃ inner vs, Q = .select none (.distinct (.project inner vs)) none) ∧
    (∀ (p : GraphPattern) (z : ZkQuery), parse_zk_ask p = .ok z →
      z.disclosed_variables = []) := by
  refine ⟨?_, ?_, ?_, ?_⟩
  · intro q Q h
    unfold build_extended_fetch_query at h
    dsimp only at h
    cases h1 : build_extended_triple_patterns q.patterns
        (extendedGraphVariables vcVariableStem q.patterns.length) with
    | error e => rw [h1, except_bind_error] at h; cases h
    | ok etps =>
      rw [h1, except_bind_ok] at h
      cases h2 : build_extended_query q
          (extendedGraphVariables vcVariableStem q.patterns.length) etps with
      | error e => rw [h2, except_bind_error] at h; cases h
      | ok exq =>
        rw [h2, except_bind_ok] at h
        cases h
        exact ⟨_, _, rfl⟩
  · intro q Q etps h
    unfold build_extended_prove_query at h
    dsimp only at h
    cases h1 : build_extended_triple_patterns
        (replace_blanknodes_with_variables q).patterns
        (extendedGraphVariables vcVariableStem
          (replace_blanknodes_with_variables q).patterns.length) with
    | error e => rw [h1, except_bind_error] at h; cases h
    | ok etps' =>
      rw [h1, except_bind_ok] at h
      cases h2 : build_extended_query (replace_blanknodes_with_variables q)
          (extendedGraphVariables vcVariableStem
            (replace_blanknodes_with_variables q).patterns.length) etps' with
      | error e => rw [h2, except_bind_error] at h; cases h
      | ok exq =>
        rw [h2, except_bind_ok] at h
        cases h
        exact ⟨_, _, rfl⟩
  · intro q Q h
    rw [construct_extended_query_eq q] at h
    cases h
    exact ⟨_, _, rfl⟩
  · intro p z h
    unfold parse_zk_ask at h
    split at h
    · exact parse_zk_common_disclosed _ _ _ _ h
    · exact parse_zk_common_disclosed _ _ _ _ h

/-- C10, witnessed: the fetch and zk.rs builders at
`SELECT ?s WHERE { ?s <p> ?o }` yield the `Distinct(Project(...))`
SELECT shape, and the ASK tree `{ ?s <p> ?o }` parses with no disclosed
variables. -/
theorem c10_extended_query_shape_witness :
    (∃ Q, build_extended_fetch_query zkQ1 = .ok Q ∧
      ∃ inner vs, Q = .select none (.distinct (.project inner vs)) none) ∧
    (∃ z, parse_zk_ask (.bgp [tpSO]) = .ok z ∧ z.disclosed_variables = []) :=
  ⟨⟨_, rfl, c10_extended_query_shape.1 zkQ1 _ rfl⟩,
   ⟨_, rfl, c10_extended_query_shape.2.2.2 (.bgp [tpSO]) _ rfl⟩⟩

theorem except_exists_ok_iff {ε α : Type} (r : Except ε α) :
    (∃ a, r = .ok a) ↔ r.isOk = true := by
  cases r <;> simp [Except.isOk, Except.toBool]

/-- `parse_zk_common` accepts exactly the Core shapes of §4.1. -/
theorem parse_zk_common_isOk (p : GraphPattern) (d : List Variable)
    (l : Option ZkQueryLimit) :
    (parse_zk_common p d l).isOk = isCoreShape p := by
  unfold parse_zk_common
  split
  all_goals try split
  all_goals try split
  all_goals simp [isCoreShape, Except.isOk, Except.toBool]
  all_goals split
  all_goals first
    | rfl
    | simp_all

/-- C5: `parse_zk_query` returns a `ZkQuery` exactly when the parsed
query is a SELECT or ASK whose pattern tree matches the accepted
grammar of §4.1 — a SELECT root `Slice(Project(Core))` or
`Project(Core)`, an ASK root `Slice(Core)` or `Core`, with
`Core ::= Bgp | Join(Values,Bgp) | Filter(E,Bgp) |
Filter(E,Join(Values,Bgp))`; CONSTRUCT, DESCRIBE and every other tree
shape yield a client error. -/
theorem c5_accepted_grammar (Q : Query) :
    (∃ z, parse_zk_query Q = .ok z) ↔ acceptedZkShape Q = true := by
  rw [except_exists_ok_iff]
  suffices h : (parse_zk_query Q).isOk = acceptedZkShape Q by rw [h]
  cases Q with
  | construct t d p b => rfl
  | describe d p b => rfl
  | select d p b =>
    show (parse_zk_select p).isOk = _
    cases p
    case slice inner s len =>
      cases inner
      case project inner' vs => exact parse_zk_common_isOk ..
      all_goals rfl
    case project inner vs => exact parse_zk_common_isOk ..
    all_goals rfl
  | ask d p b =>
    show (parse_zk_ask p).isOk = _
    cases p
    all_goals dsimp only [parse_zk_ask, acceptedZkShape]
    all_goals exact parse_zk_common_isOk ..

/-- `build_disclosed_subject` fails only with
`FailedBuildingDisclosedSubject`. -/
theorem build_disclosed_subject_error_uniform (sol : List (Variable × Term))
    (pwg : TriplePatternWithGraphVar) (e : ZkSparqlError)
    (h : build_disclosed_subject sol pwg = .error e) :
    e = .failedBuildingDisclosedSubject := by
  unfold build_disclosed_subject at h
  iterate 25 (all_goals try (first
    | rfl
    | (rw [except_bind_error] at h; cases h; rfl)
    | rw [except_bind_ok] at h
    | split at h
    | (cases h)))

/-- C6: `build_disclosed_subject` returns a `Quad` only if the row
binds the graph variable to a named node, binds every variable of the
triple pattern, binds a variable subject and a variable predicate to
named nodes, and the pattern has no quoted-triple subject or object;
and one failing row/pattern pair makes the whole
`build_disclosed_subjects` fail with the server error
`FailedBuildingDisclosedSubject`. -/
theorem c6_disclosed_subject_conditions :
    (∀ (sol : List (Variable × Term)) (pwg : TriplePatternWithGraphVar) (q : Quad),
      build_disclosed_subject sol pwg = .ok q →
      (∃ n, solutionGet sol pwg.graph_var = some (.namedNode n)) ∧
      (∀ v ∈ triplePatternVars pwg.triple_pattern, ∃ t, solutionGet sol v = some t) ∧
      (∀ v, pwg.triple_pattern.subject = .var v →
        ∃ n, solutionGet sol v = some (.namedNode n)) ∧
      (∀ v, pwg.triple_pattern.predicate = .var v →
        ∃ n, solutionGet sol v = some (.namedNode n)) ∧
      (∀ s p o, pwg.triple_pattern.subject ≠ .triple s p o) ∧
      (∀ s p o, pwg.triple_pattern.object ≠ .triple s p o)) ∧
    (∀ (sols : List (List (Variable × Term)))
       (etps : List TriplePatternWithGraphVar)
       (sol : List (Variable × Term)) (pwg : TriplePatternWithGraphVar)
       (e : ZkSparqlError),
      sol ∈ sols → pwg ∈ etps → build_disclosed_subject sol pwg = .error e →
      build_disclosed_subjects sols etps =
        .error .failedBuildingDisclosedSubject) := by
  constructor
  · intro sol pwg q h
    obtain ⟨⟨tps, tpp, tpo⟩, gvar⟩ := pwg
    unfold build_disclosed_subject at h
    dsimp only at h
    iterate 25 (all_goals try (first
      | (rw [except_bind_error] at h; cases h)
      | rw [except_bind_ok] at h
      | split at h
      | (cases h)))
    all_goals simp_all [triplePatternVars, termPatternVars]
  · intro sols etps sol pwg e hsol hpwg herr
    have hinner : ∀ (s : List (Variable × Term)) (e' : ZkSparqlError),
        etps.mapM (fun pattern => build_disclosed_subject s pattern)
          = .error e' → e' = .failedBuildingDisclosedSubject := by
      intro s e' he'
      rcases exceptMapM_uniform_error (fun pattern => build_disclosed_subject s pattern)
          .failedBuildingDisclosedSubject
          (fun x ex hx => build_disclosed_subject_error_uniform s x ex hx) etps with
        ⟨ys, hys⟩ | hys
      · rw [hys] at he'; cases he'
      · rw [hys] at he'; cases he'; rfl
    have hrow : etps.mapM (fun pattern => build_disclosed_subject sol pattern)
        = .error .failedBuildingDisclosedSubject :=
      exceptMapM_error_of_mem _ _
        (fun x ex hx => build_disclosed_subject_error_uniform sol x ex hx)
        etps pwg hpwg e herr
    have houter : sols.mapM (fun s =>
        etps.mapM (fun pattern => build_disclosed_subject s pattern))
        = .error .failedBuildingDisclosedSubject :=
      exceptMapM_error_of_mem _ _ hinner sols sol hsol _ hrow
    unfold build_disclosed_subjects
    rw [houter, except_bind_error]

/-- C6, witnessed: a row binding the graph variable and both pattern
variables to named nodes builds a quad satisfying every condition, and
a row missing the object binding fails the whole build. -/
theorem c6_disclosed_subject_conditions_witness :
    ((∃ n, solutionGet solRowOk tpgSO.graph_var = some (.namedNode n)) ∧
      (∀ v ∈ triplePatternVars tpgSO.triple_pattern,
        ∃ t, solutionGet solRowOk v = some t) ∧
      (∀ v, tpgSO.triple_pattern.subject = .var v →
        ∃ n, solutionGet solRowOk v = some (.namedNode n)) ∧
      (∀ v, tpgSO.triple_pattern.predicate = .var v →
        ∃ n, solutionGet solRowOk v = some (.namedNode n)) ∧
      (∀ s p o, tpgSO.triple_pattern.subject ≠ .triple s p o) ∧
      (∀ s p o, tpgSO.triple_pattern.object ≠ .triple s p o)) ∧
    build_disclosed_subjects [solRowBad] [tpgSO] =
      .error .failedBuildingDisclosedSubject :=
  ⟨c6_disclosed_subject_conditions.1 solRowOk tpgSO _ rfl,
   c6_disclosed_subject_conditions.2 [solRowBad] [tpgSO] solRowBad tpgSO
     .failedBuildingDisclosedSubject (by decide) (by decide) rfl⟩

/-! Pseudonymizer lemmas for the proof-value non-leak invariant. -/

theorem nymIri_ne_proof_value (k : Nat) : (nymIri k).iri ≠ PROOF_VALUE := by
  intro h
  have h2 := congrArg String.data h
  rw [show (nymIri k).iri = "urn:nym:" ++ toString k from rfl,
      String.data_append] at h2
  have h3 : ("urn:nym:" : String).data = 'u' :: "rn:nym:".data := rfl
  have h4 : (PROOF_VALUE : String).data
      = 'h' :: "ttps://w3id.org/security#proofValue".data := rfl
  rw [h3, h4] at h2
  simp at h2

theorem nymLookup_mem (m : List (NymKey × NamedNode)) (key : NymKey)
    (n : NamedNode) (h : nymLookup m key = some n) : (key, n) ∈ m := by
  induction m with
  | nil => cases h
  | cons kn m ih =>
    unfold nymLookup at h
    split at h
    · cases h
      rename_i heq
      rw [show kn = (key, kn.2) from Prod.ext heq rfl]
      exact List.mem_cons_self ..
    · exact List.mem_cons_of_mem _ (ih h)

theorem issue_out (st : Pseudonymizer) (key : NymKey) (h : st.wf) :
    (∃ k, (st.issue key).1 = nymIri k) ∧ (st.issue key).2.wf := by
  unfold Pseudonymizer.issue
  split
  · rename_i n hlk
    exact ⟨h _ (nymLookup_mem _ _ _ hlk), h⟩
  · refine ⟨⟨st.counter, rfl⟩, ?_⟩
    intro kn hkn
    rcases List.mem_append.mp hkn with hkn | hkn
    · exact h kn hkn
    · rcases List.mem_singleton.mp hkn with rfl
      exact ⟨st.counter, rfl⟩

theorem nymNamed_out (st : Pseudonymizer) (targets : List NamedNode)
    (n : NamedNode) (h : st.wf) :
    ((nymNamed st targets n).1 = n ∨ ∃ k, (nymNamed st targets n).1 = nymIri k) ∧
      (nymNamed st targets n).2.wf := by
  unfold nymNamed
  split
  · rcases issue_out st (.named n) h with ⟨hk, hwf⟩
    exact ⟨Or.inr hk, hwf⟩
  · exact ⟨Or.inl rfl, h⟩

theorem nymSubject_wf (st : Pseudonymizer) (targets : List NamedNode)
    (s : Subject) (h : st.wf) : (nymSubject st targets s).2.wf := by
  cases s with
  | namedNode n => exact (nymNamed_out st targets n h).2
  | blankNode b => exact (issue_out st (.blank b) h).2
  | triple a b c => exact h

theorem nymTerm_wf (st : Pseudonymizer) (targets : List NamedNode)
    (t : Term) (h : st.wf) : (nymTerm st targets t).2.wf := by
  cases t with
  | namedNode n => exact (nymNamed_out st targets n h).2
  | blankNode b => exact (issue_out st (.blank b) h).2
  | literal l => exact h
  | triple a b c => exact h

theorem nymGraph_wf (st : Pseudonymizer) (targets : List NamedNode)
    (g : GraphName) (h : st.wf) : (nymGraph st targets g).2.wf := by
  cases g with
  | namedNode n => exact (nymNamed_out st targets n h).2
  | blankNode b => exact (issue_out st (.blank b) h).2
  | defaultGraph => exact h

/-- The pseudonymized quad's predicate is the original predicate or a
pseudonym IRI, and well-formedness of the state is preserved. -/
theorem pseudonymize_quad_pred (st : Pseudonymizer) (q : Quad)
    (targets : List NamedNode) (h : st.wf) :
    ((pseudonymize_quad st q targets).1.predicate = q.predicate ∨
      ∃ k, (pseudonymize_quad st q targets).1.predicate = nymIri k) ∧
    (pseudonymize_quad st q targets).2.wf := by
  unfold pseudonymize_quad
  have hs := nymSubject_wf st targets q.subject h
  have hp := nymNamed_out (nymSubject st targets q.subject).2 targets q.predicate hs
  have ho := nymTerm_wf _ targets q.object hp.2
  have hg := nymGraph_wf _ targets q.graph ho
  exact ⟨hp.1, hg⟩

/-- The pull-then-pseudonymize fold keeps the no-`proofValue`-predicate
invariant of its inputs and accumulator, and preserves well-formedness. -/
theorem pullfold_pred (targets : List NamedNode) (pulled : List Quad) :
    ∀ (acc : List Quad) (st : Pseudonymizer), st.wf →
    (∀ q ∈ pulled, q.predicate.iri ≠ PROOF_VALUE) →
    (∀ q ∈ acc, q.predicate.iri ≠ PROOF_VALUE) →
    (∀ q' ∈ (pulled.foldl (fun acc q =>
        let pq := pseudonymize_quad acc.2 q targets
        (acc.1 ++ [pq.1], pq.2)) (acc, st)).1,
      q'.predicate.iri ≠ PROOF_VALUE) ∧
    (pulled.foldl (fun acc q =>
        let pq := pseudonymize_quad acc.2 q targets
        (acc.1 ++ [pq.1], pq.2)) (acc, st)).2.wf := by
  induction pulled with
  | nil => intro acc st hwf _ hacc; exact ⟨hacc, hwf⟩
  | cons q pulled ih =>
    intro acc st hwf hin hacc
    simp only [List.foldl_cons]
    rcases pseudonymize_quad_pred st q targets hwf with ⟨hpred, hwf'⟩
    refine ih _ _ hwf' (fun x hx => hin x (List.mem_cons_of_mem _ hx)) ?_
    intro x hx
    rcases List.mem_append.mp hx with hx | hx
    · exact hacc x hx
    · rcases List.mem_singleton.mp hx with rfl
      rcases hpred with hpred | ⟨k, hpred⟩
      · rw [hpred]; exact hin q (List.mem_cons_self ..)
      · rw [hpred]; exact nymIri_ne_proof_value k

/-- `pullAndNymize` returns only quads whose predicate is not
`sec:proofValue`, and preserves well-formedness. -/
theorem pullAndNymize_pred (store : List Quad) (st : Pseudonymizer)
    (gid : GraphName) (pred : Option NamedNode) (obj : Option Term)
    (hwf : st.wf) (r : List Quad × Pseudonymizer)
    (h : pullAndNymize store st gid pred obj = .ok r) :
    (∀ q ∈ r.1, q.predicate.iri ≠ PROOF_VALUE) ∧ r.2.wf := by
  unfold pullAndNymize at h
  cases htg : (quadsForPattern store none pred obj (some gid)).mapM
      (fun q => match q.subject with
        | .namedNode n => Except.ok n
        | .blankNode b => .error (ZkSparqlError.blankNodeMustBeSkolemized b)
        | .triple _ _ _ => .error .failedBuildingCredentialMetadata) with
  | error e => rw [htg, except_bind_error] at h; cases h
  | ok targets =>
    rw [htg, except_bind_ok] at h
    cases h
    refine pullfold_pred targets _ [] st hwf ?_ (fun x hx => absurd hx (List.not_mem_nil x))
    intro x hx
    have := (List.mem_filter.mp hx).2
    exact of_decide_eq_true this

/-- `build_metadata_or_proofs` returns only quads whose predicate is
not `sec:proofValue`. -/
theorem bmop_pred (pred : Option NamedNode) (obj : Option Term)
    (store : List Quad) (gids : List GraphName) :
    ∀ (st : Pseudonymizer), st.wf →
    ∀ r, build_metadata_or_proofs gids pred obj store st = .ok r →
    (∀ q ∈ r.1, q.predicate.iri ≠ PROOF_VALUE) ∧ r.2.wf := by
  induction gids with
  | nil =>
    intro st hwf r h
    cases h
    exact ⟨fun x hx => absurd hx (List.not_mem_nil x), hwf⟩
  | cons g gs ih =>
    intro st hwf r h
    unfold build_metadata_or_proofs at h
    cases h1 : pullAndNymize store st g pred obj with
    | error e => rw [h1, except_bind_error] at h; cases h
    | ok r1 =>
      rw [h1, except_bind_ok] at h
      rcases pullAndNymize_pred store st g pred obj hwf r1 h1 with ⟨hq1, hwf1⟩
      cases h2 : build_metadata_or_proofs gs pred obj store r1.2 with
      | error e => rw [h2, except_bind_error] at h; cases h
      | ok r2 =>
        rw [h2, except_bind_ok] at h
        cases h
        rcases ih r1.2 hwf1 r2 h2 with ⟨hq2, hwf2⟩
        refine ⟨?_, hwf2⟩
        intro x hx
        rcases List.mem_append.mp hx with hx | hx
        · exact hq1 x hx
        · exact hq2 x hx

theorem mem_quadsForPattern_pg (store : List Quad) (pn : NamedNode)
    (gn : GraphName) (q : Quad) :
    q ∈ quadsForPattern store none (some pn) none (some gn) ↔
      q ∈ store ∧ q.predicate = pn ∧ q.graph = gn := by
  unfold quadsForPattern
  rw [List.mem_filter]
  simp

theorem map_eq_singleton {α β : Type} (f : α → β) (l : List α) (y : β)
    (h : l.map f = [y]) : ∃ x, l = [x] ∧ f x = y := by
  cases l with
  | nil => cases h
  | cons x xs =>
    cases xs with
    | nil =>
      simp only [List.map_cons, List.map_nil] at h
      cases h
      exact ⟨x, rfl, rfl⟩
    | cons x' xs' => simp at h

theorem gen_proof_graph_ids_eq (ids : List GraphName)
    (h : ∀ g ∈ ids, ∃ n, g = .namedNode n) :
    gen_proof_graph_ids ids = .ok (ids.map proofGraphName) := by
  unfold gen_proof_graph_ids
  induction ids with
  | nil => rfl
  | cons g ids ih =>
    obtain ⟨n, rfl⟩ := h g (List.mem_cons_self ..)
    rw [List.mapM_cons]
    have hrest := ih (fun g' hg' => h g' (List.mem_cons_of_mem _ hg'))
    unfold gen_proof_graph_ids at hrest
    simp only [hrest, except_bind_ok, except_pure_eq_ok, List.map_cons]
    rfl

/-- C3: no quad returned by `build_metadata` or `build_proofs` carries
`sec:proofValue` as its predicate (for any request-local, well-formed
pseudonymizer state); the proof values surface only through the side
map of `get_proof_values`, each entry of which is the lexical value of
a `sec:proofValue` quad of the store. -/
theorem c3_proof_value_non_leak :
    (∀ (ids : List GraphName) (store : List Quad) (st : Pseudonymizer),
      st.wf → ∀ r, build_metadata ids store st = .ok r →
      ∀ q ∈ r.1, q.predicate.iri ≠ PROOF_VALUE) ∧
    (∀ (ids : List GraphName) (store : List Quad) (st : Pseudonymizer),
      st.wf → ∀ r, build_proofs ids store st = .ok r →
      ∀ q ∈ r.1, q.predicate.iri ≠ PROOF_VALUE) ∧
    (∀ (ids : List GraphName) (store : List Quad)
       (m : List (GraphName × String)),
      get_proof_values ids store = .ok m →
      ∀ gm ∈ m, ∃ q ∈ store, q.graph = gm.1 ∧ q.predicate = ⟨PROOF_VALUE⟩ ∧
        ∃ l, q.object = Term.literal l ∧ l.value = gm.2) := by
  refine ⟨?_, ?_, ?_⟩
  · intro ids store st hwf r h
    exact (bmop_pred _ _ store ids st hwf r h).1
  · intro ids store st hwf r h
    unfold build_proofs at h
    cases h1 : gen_proof_graph_ids ids with
    | error e => rw [h1, except_bind_error] at h; cases h
    | ok pids =>
      rw [h1, except_bind_ok] at h
      exact (bmop_pred _ _ store pids st hwf r h).1
  · intro ids store m h gm hgm
    unfold get_proof_values at h
    cases h1 : gen_proof_graph_ids ids with
    | error e => rw [h1, except_bind_error] at h; cases h
    | ok pids =>
      rw [h1, except_bind_ok] at h
      rcases exceptMapM_mem_of_ok _ _ _ h gm hgm with ⟨pid, _, hitem⟩
      unfold get_proof_values_item at hitem
      dsimp only at hitem
      split at hitem
      · cases hitem
        rename_i v heq
        rcases map_eq_singleton _ _ _ heq with ⟨q, hq, hobj⟩
        have hqmem : q ∈ quadsForPattern store none (some ⟨PROOF_VALUE⟩) none
            (some pid) := by rw [hq]; exact List.mem_cons_self ..
        rcases (mem_quadsForPattern_pg store _ pid q).mp hqmem with ⟨hst, hpred, hgr⟩
        exact ⟨q, hst, hgr, hpred, v, hobj, rfl⟩
      · cases hitem

/-- C3, witnessed on the small concrete store: the metadata and proof
pulls of the credential graph return quads, none carrying
`sec:proofValue`, while `get_proof_values` surfaces the proof value in
its side map. -/
theorem c3_proof_value_non_leak_witness :
    (∃ r, build_metadata [credG] storeEx ⟨[], 0⟩ = .ok r ∧
      ∀ q ∈ r.1, q.predicate.iri ≠ PROOF_VALUE) ∧
    (∃ r, build_proofs [credG] storeEx ⟨[], 0⟩ = .ok r ∧
      ∀ q ∈ r.1, q.predicate.iri ≠ PROOF_VALUE) ∧
    (∃ m, get_proof_values [credG] storeEx = .ok m ∧
      ∀ gm ∈ m, ∃ q ∈ storeEx, q.graph = gm.1 ∧ q.predicate = ⟨PROOF_VALUE⟩ ∧
        ∃ l, q.object = Term.literal l ∧ l.value = gm.2) :=
  ⟨⟨_, rfl, c3_proof_value_non_leak.1 [credG] storeEx ⟨[], 0⟩
      (fun kn hkn => absurd hkn (List.not_mem_nil kn)) _ rfl⟩,
   ⟨_, rfl, c3_proof_value_non_leak.2.1 [credG] storeEx ⟨[], 0⟩
      (fun kn hkn => absurd hkn (List.not_mem_nil kn)) _ rfl⟩,
   ⟨_, rfl, c3_proof_value_non_leak.2.2 [credG] storeEx _ rfl⟩⟩

theorem exceptMapM_ok_of_all {α β ε : Type} (f : α → Except ε β) :
    ∀ l : List α, (∀ x ∈ l, ∃ y, f x = .ok y) → ∃ ys, l.mapM f = .ok ys := by
  intro l
  induction l with
  | nil => intro _; exact ⟨[], rfl⟩
  | cons a l ih =>
    intro h
    obtain ⟨y, hy⟩ := h a (List.mem_cons_self ..)
    obtain ⟨ys, hys⟩ := ih (fun x hx => h x (List.mem_cons_of_mem _ hx))
    exact ⟨y :: ys, by
      rw [List.mapM_cons, hy, except_bind_ok, hys, except_bind_ok,
          except_pure_eq_ok]⟩

theorem gpv_item_ok (store : List Quad) (pid : GraphName) (l : Literal)
    (h : pvObjects store pid = [Term.literal l]) :
    get_proof_values_item store pid = .ok (pid, l.value) := by
  unfold get_proof_values_item
  dsimp only
  have h' : (quadsForPattern store none (some ⟨PROOF_VALUE⟩) none
      (some pid)).map (fun q => q.object) = [Term.literal l] := h
  rw [h']

theorem gpv_item_err (store : List Quad) (pid : GraphName)
    (h : ∀ l, pvObjects store pid ≠ [Term.literal l]) :
    get_proof_values_item store pid = .error .invalidProofValues := by
  unfold get_proof_values_item
  dsimp only
  split
  · rename_i v heq
    exact absurd heq (h v)
  · rfl

theorem gpv_item_error_uniform (store : List Quad) (pid : GraphName)
    (e : ZkSparqlError) (h : get_proof_values_item store pid = .error e) :
    e = .invalidProofValues := by
  unfold get_proof_values_item at h
  dsimp only at h
  split at h
  · cases h
  · cases h; rfl

/-- C4: with every credential graph named, `get_proof_values` succeeds
exactly when each derived proof graph holds exactly one
`sec:proofValue` quad whose object is a literal, and then the side map
holds that literal's lexical value for the proof graph; if any proof
graph violates the requirement (zero quads, several, or a non-literal
object), the whole call fails with `InvalidProofValues`. -/
theorem c4_proof_values (ids : List GraphName) (store : List Quad)
    (hn : ∀ g ∈ ids, ∃ n, g = .namedNode n) :
    ((∀ g ∈ ids, goodProofGraph store g) →
      ∃ m, get_proof_values ids store = .ok m ∧
        ∀ n, GraphName.namedNode n ∈ ids → ∀ l,
          pvObjects store (proofGraphOf n) = [Term.literal l] →
          (proofGraphOf n, l.value) ∈ m) ∧
    ((∃ g ∈ ids, ¬ goodProofGraph store g) →
      get_proof_values ids store = .error .invalidProofValues) := by
  have hgen := gen_proof_graph_ids_eq ids hn
  constructor
  · intro hgood
    have hall : ∀ pid ∈ ids.map proofGraphName,
        ∃ y, get_proof_values_item store pid = .ok y := by
      intro pid hpid
      rcases List.mem_map.mp hpid with ⟨g, hg, rfl⟩
      rcases hgood g hg with ⟨n, l, rfl, hpv⟩
      exact ⟨_, gpv_item_ok store _ l hpv⟩
    obtain ⟨m, hm⟩ := exceptMapM_ok_of_all _ _ hall
    refine ⟨m, ?_, ?_⟩
    · unfold get_proof_values
      rw [hgen, except_bind_ok, hm]
    · intro n hmem l hpv
      have hpidmem : proofGraphOf n ∈ ids.map proofGraphName :=
        List.mem_map.mpr ⟨.namedNode n, hmem, rfl⟩
      rcases exceptMapM_ok_of_mem _ _ _ hm _ hpidmem with ⟨y, hy, hitem⟩
      rw [gpv_item_ok store _ l hpv] at hitem
      cases hitem
      exact hy
  · rintro ⟨g, hg, hbad⟩
    rcases hn g hg with ⟨n, rfl⟩
    have hitem : get_proof_values_item store (proofGraphOf n)
        = .error .invalidProofValues := by
      apply gpv_item_err
      intro l hl
      exact hbad ⟨n, l, rfl, hl⟩
    have herr := exceptMapM_error_of_mem (get_proof_values_item store)
      .invalidProofValues (fun x e' hx => gpv_item_error_uniform store x e' hx)
      (ids.map proofGraphName) (proofGraphOf n)
      (List.mem_map.mpr ⟨_, hg, rfl⟩) _ hitem
    unfold get_proof_values
    rw [hgen, except_bind_ok, herr]

/-- C4, witnessed: on the store whose proof graph holds exactly one
literal proof value the call succeeds with that value in the side map;
duplicating the proof-value quad makes the call fail with
`InvalidProofValues`. -/
theorem c4_proof_values_witness :
    (∃ m, get_proof_values [credG] storeEx = .ok m ∧
      ∀ n, GraphName.namedNode n ∈ [credG] → ∀ l,
        pvObjects storeEx (proofGraphOf n) = [Term.literal l] →
        (proofGraphOf n, l.value) ∈ m) ∧
    get_proof_values [credG] storeExDup = .error .invalidProofValues := by
  have hn : ∀ g ∈ [credG], ∃ n, g = GraphName.namedNode n := by
    intro g hg
    rcases List.mem_singleton.mp hg with rfl
    exact ⟨_, rfl⟩
  constructor
  · refine (c4_proof_values [credG] storeEx hn).1 ?_
    intro g hg
    rcases List.mem_singleton.mp hg with rfl
    exact ⟨⟨"http://example.org/c1.subject"⟩, .simple "proofBytes", rfl, rfl⟩
  · refine (c4_proof_values [credG] storeExDup hn).2 ?_
    refine ⟨credG, List.mem_singleton.mpr rfl, ?_⟩
    rintro ⟨n, l, heq, hpv⟩
    have hn2 : n = ⟨"http://example.org/c1.subject"⟩ := by
      unfold credG at heq
      injection heq with h2
      exact h2.symm
    subst hn2
    have hlen : (pvObjects storeExDup
        (proofGraphOf ⟨"http://example.org/c1.subject"⟩)).length = 2 := rfl
    rw [hpv] at hlen
    simp at hlen

end ZkSparql
